import Mathlib

/-!
# Verification of the bidu-python-backend personalize pipeline

Shallow embedding of the value-bearing logic of the repository:

* `app/services/interaction/interaction.py` — event-value scoring,
  behavioral fan-out normalization, purchase/review transforms, and the
  cursor-paginated fetcher;
* `app/services/product/product.py` — product status resolution, price
  aggregation, and product feature extraction;
* `app/db/repositories/ecategory.py` — category tree build / flatten.

Modelling conventions:

* Python dicts become structures with `Option` fields; `dict.get(k, d)`
  becomes `Option.getD`.
* A dict value that can be key-missing, `None`, or present is modelled by
  `PyField` (missing / null / val); accessing an attribute of `None`
  raises, which is modelled by `Except.error`.
* Timestamps are modelled as already-converted optional integers;
  `to_timestamp` / `convert_to_timestamp` (pure datetime parsing) are
  modelled as the identity on such optional integers.  Python truthiness
  of a timestamp (`if timestamp:`) is `some t` with `t ≠ 0`.
* Monetary values and event values are rationals (`ℚ`).
* Python functions that can fall off the end without returning a value
  (`_calculate_cod_event_value`, `_calculate_epayment_event_value`)
  return `Option ℚ`, with `none` for the implicit Python `None`.
-/

namespace Bidu

/-- `app/constants/variable.py`: `unknown = "unknown"`. -/
def unknown : String := "unknown"

/-- `PaymentMethodId.CASH_ID.value`. -/
def CASH_ID : String := "6080f987ca33c1913de1be38"

/-- `E_PAYMENT_IDS` — the static configured e-payment method id set. -/
def E_PAYMENT_IDS : List String :=
  ["6080f24dca33c1913de1be35",  -- VNPAY
   "6080f319ca33c1913de1be36",  -- MOMO
   "632aca6e2c2071e01556e978",  -- BANK_CARD
   "632acad12c2071e01556e979",  -- MASTERCARD_VISA
   "67c1433d444943956c790309",  -- ONEPAY
   "67d3926bbfaa50609c736fb9",  -- MASTERCARD_VISA_ONEPAY
   "67d39243bfaa50609c736fb8"]  -- BANK_CARD_ONEPAY

/-- `get_payment_method_name` from `app/constants/variable.py`. -/
def get_payment_method_name (payment_method_id : String) : String :=
  if payment_method_id = CASH_ID then "cash"
  else if payment_method_id ∈ E_PAYMENT_IDS then "epay"
  else unknown

/-- Python `str.lower()`, evaluated on the character list (ASCII data;
`String.toLower` itself does not kernel-reduce). -/
def lower (s : String) : String := ⟨s.data.map Char.toLower⟩

/-- Modelled from the spec: the repository imports `to_lower_strip` from
`app/utils/string.py`, a file absent from the sources; per its name and
call sites it strips surrounding blanks and lower-cases a string. -/
def to_lower_strip (s : String) : String :=
  ⟨(((s.data.dropWhile (fun c => c = ' ')).reverse.dropWhile
      (fun c => c = ' ')).reverse).map Char.toLower⟩

/-- A dict entry that distinguishes a missing key from a key bound to
Python `None` and from a real value. -/
inductive PyField (α : Type) where
  | missing : PyField α
  | null : PyField α
  | val : α → PyField α
deriving DecidableEq

/-- The `state` sub-document of a buyer address (`{"name": ...}`). -/
structure StateName where
  name : Option String
deriving DecidableEq

/-- The `address` sub-document of an order. -/
structure BuyerAddress where
  country : Option String
  state : PyField StateName
deriving DecidableEq

/-- The order dict joined onto an order item
(`order.shipping_status`, `order.payment_status`, `order.payment_method_id`,
`order.address`, `order.user_id`, `order.shop_id`). -/
structure Order where
  payment_method_id : Option String
  shipping_status : Option String
  payment_status : Option String
  shop_id : Option String
  user_id : Option String
  address : PyField BuyerAddress
deriving DecidableEq

/-- The empty dict `{}`: every `get` yields its default. -/
def emptyOrder : Order :=
  { payment_method_id := none, shipping_status := none, payment_status := none,
    shop_id := none, user_id := none, address := PyField.missing }

/-- `_calculate_cod_event_value(shipping_status, payment_status)`:
the COD rows of the scoring matrix; unmatched combinations fall off the
end of the Python function, i.e. return `none`. -/
def calculate_cod_event_value (shipping_status payment_status : String) : Option ℚ :=
  if shipping_status = "pending" ∧ payment_status = "pending" then
    some 3
  else if shipping_status ∈ ["wait_to_pick", "shipping", "shipped"] ∧
      payment_status ∈ ["paid", "pending"] then
    some 5
  else if shipping_status ∈ ["canceling", "canceled"] ∧ payment_status = "pending" then
    some (1/2)
  else if shipping_status ∈ ["canceling", "canceled"] ∧ payment_status = "paid" then
    some (3/2)
  else if shipping_status ∈ ["return", "returning"] ∧
      payment_status ∈ ["paid", "pending"] then
    some (3/2)
  else
    none

/-- `_calculate_epayment_event_value(shipping_status, payment_status)`:
the e-payment rows of the scoring matrix; unmatched combinations return
`none`. -/
def calculate_epayment_event_value (shipping_status payment_status : String) : Option ℚ :=
  if shipping_status ∈ ["wait_to_pick", "shipping", "shipped"] ∧
      payment_status = "paid" then
    some 5
  else if shipping_status = "pending" ∧ payment_status = "pending" then
    some 1
  else if shipping_status ∈ ["canceling", "canceled"] ∧ payment_status = "paid" then
    some 2
  else if shipping_status ∈ ["return", "returning"] ∧ payment_status = "paid" then
    some (3/2)
  else
    none

/-- `_calculate_event_value(order)`.  The argument is `Option Order`
because Python checks `if not order` (a falsy / empty order dict), which
yields `0`.  COD and e-payment orders delegate to the two sub-tables
(which may return `none`); any other payment method scores `0.5`. -/
def calculate_event_value (order : Option Order) : Option ℚ :=
  match order with
  | none => some 0
  | some o =>
    let payment_method_id := o.payment_method_id.getD ""
    let shipping_status := lower (o.shipping_status.getD "")
    let payment_status := lower (o.payment_status.getD "")
    if payment_method_id = CASH_ID then
      calculate_cod_event_value shipping_status payment_status
    else if payment_method_id ∈ E_PAYMENT_IDS then
      calculate_epayment_event_value shipping_status payment_status
    else
      some (1/2)

/-! ## Spec-side scoring table (for the refinement comparison of C1)

These definitions transcribe the table of spec §4.4 verbatim; they are
compared against the code-derived definitions above. -/

/-- The COD column of the spec table (§4.4), written from the spec rows. -/
def specCodValue (shipping payment : String) : Option ℚ :=
  if shipping = "pending" ∧ payment = "pending" then some 3
  else if (shipping = "wait_to_pick" ∨ shipping = "shipping" ∨ shipping = "shipped") ∧
      (payment = "paid" ∨ payment = "pending") then some 5
  else if (shipping = "canceling" ∨ shipping = "canceled") ∧ payment = "pending" then
    some (1/2)
  else if (shipping = "canceling" ∨ shipping = "canceled") ∧ payment = "paid" then
    some (3/2)
  else if (shipping = "return" ∨ shipping = "returning") ∧
      (payment = "paid" ∨ payment = "pending") then some (3/2)
  else none

/-- The e-payment column of the spec table (§4.4). -/
def specEpaymentValue (shipping payment : String) : Option ℚ :=
  if (shipping = "wait_to_pick" ∨ shipping = "shipping" ∨ shipping = "shipped") ∧
      payment = "paid" then some 5
  else if shipping = "pending" ∧ payment = "pending" then some 1
  else if (shipping = "canceling" ∨ shipping = "canceled") ∧ payment = "paid" then
    some 2
  else if (shipping = "return" ∨ shipping = "returning") ∧ payment = "paid" then
    some (3/2)
  else none

/-- The whole spec table: classify the payment method, then look the
combination up; unknown methods score `0.5` unconditionally. -/
def specPurchaseValue (payment_method_id shipping payment : String) : Option ℚ :=
  if payment_method_id = CASH_ID then specCodValue shipping payment
  else if payment_method_id ∈ E_PAYMENT_IDS then specEpaymentValue shipping payment
  else some (1/2)

/-! ## Output records -/

/-- One normalized interaction record in the custom personalize format
(the dict literal built in `interaction.py`). -/
structure PersonalizeRecord where
  USER_ID : String
  ITEM_ID : String
  EVENT_TYPE : String
  TIMESTAMP : Option Int
  SHOP_ID : String
  EVENT_VALUE : Option ℚ
  ORDER_VALUE : ℚ
  BASKET_SIZE : Int
  PAYMENT_METHOD : String
  DELIVERY_LOCATION : String
deriving DecidableEq

/-! ## Behavioral fan-out normalizer -/

/-- A raw behavioral event from the tracking store, with timestamps
already converted (`_handle_interaction_data`). -/
structure RawInteraction where
  actor_id : Option String
  target_id : Option String
  action_type : Option String
  shop_id : Option String
  created_at : Option Int
  visited_ats : List (Option Int)
deriving DecidableEq

/-- The `event_value_mapping` dict of
`_process_interaction_for_personalize` (`.get(event_type, 0)`). -/
def event_value_mapping (event_type : String) : ℚ :=
  if event_type = "view_product" then 1
  else if event_type = "add_product_to_favorite" then 2
  else if event_type = "add_cart" then 5/2
  else 0

/-- Python truthiness of an (already converted) optional timestamp. -/
def truthyTimestamp : Option Int → Bool
  | none => false
  | some t => t ≠ 0

/-- The record dict built for one timestamp inside
`_process_interaction_for_personalize`. -/
def behavioralRecord (raw : RawInteraction) (t : Int) : PersonalizeRecord :=
  { ITEM_ID := raw.target_id.getD unknown,
    USER_ID := raw.actor_id.getD unknown,
    EVENT_TYPE := raw.action_type.getD unknown,
    TIMESTAMP := some t,
    SHOP_ID := raw.shop_id.getD unknown,
    EVENT_VALUE := some (event_value_mapping (raw.action_type.getD unknown)),
    ORDER_VALUE := 0,
    BASKET_SIZE := 0,
    PAYMENT_METHOD := unknown,
    DELIVERY_LOCATION := unknown }

/-- `_process_interaction_for_personalize(raw_interaction)`: falls back to
`[created_at]` when `visited_ats` is empty, then emits one record per
truthy timestamp. -/
def process_interaction_for_personalize (raw : RawInteraction) : List PersonalizeRecord :=
  let visited := if raw.visited_ats.isEmpty then [raw.created_at] else raw.visited_ats
  visited.filterMap (fun t =>
    match t with
    | some ts => if ts ≠ 0 then some (behavioralRecord raw ts) else none
    | none => none)

/-! ## Purchase transform -/

/-- A variant / embedded product snapshot with its two price fields. -/
structure Variant where
  sale_price : Option ℚ
  before_sale_price : Option ℚ
deriving DecidableEq

/-- An order item joined with its parent orders (`order` is the joined
list; an element `none` stands for an empty order dict).  The `variant`
and `product` fields are `none` when missing or falsy. -/
structure OrderItem where
  order : List (Option Order)
  product_id : Option String
  quantity : Option Int
  created_at : Option Int
  variant : Option Variant
  product : Option Variant
deriving DecidableEq

/-- The delivery-location branch of `_transform_order_item_to_personalize`
acting on a real address dict:  country `VN` or `""` takes the state
name, `SG` is literal `"singapore"`, anything else is unknown.  A `state`
bound to `None` makes `state.get("name", ...)` raise. -/
def deliveryFromAddress (a : BuyerAddress) : Except Unit String :=
  if a.country = some "VN" ∨ a.country = some "" then
    match a.state with
    | PyField.null => Except.error ()
    | PyField.missing => Except.ok unknown
    | PyField.val s => Except.ok (s.name.getD unknown)
  else if a.country = some "SG" then Except.ok "singapore"
  else Except.ok unknown

/-- `order.get("address", {})` followed by the branch above; an `address`
key bound to `None` makes `buyer_address.get("country")` raise. -/
def deliveryLocationOf (addr : PyField BuyerAddress) : Except Unit String :=
  match addr with
  | PyField.null => Except.error ()
  | PyField.missing => deliveryFromAddress { country := none, state := PyField.missing }
  | PyField.val a => deliveryFromAddress a

/-- `EventType.PURCHASE.value` / `EventType.REVIEW.value`.  Modelled from
the spec: the `EventType` enum of
`app/services/interaction/constant.py` is not present in the sources;
the spec names the event classes purchase and review. -/
def EventType_PURCHASE : String := "purchase"

def EventType_REVIEW : String := "review"

/-- `_transform_order_item_to_personalize(order_item)`.
`Except.error` models an exception escaping the `try` (re-raised by the
`except` clause); `Except.ok none` models the skip (`return None`) for an
item without a parent order. -/
def transform_order_item_to_personalize (item : OrderItem) :
    Except Unit (Option PersonalizeRecord) :=
  match item.order with
  | [] => Except.ok none
  | o? :: _ =>
    let o := o?.getD emptyOrder
    let order_value : ℚ :=
      match item.variant with
      | some v => v.before_sale_price.getD 0
      | none =>
        match item.product with
        | some pr => pr.before_sale_price.getD 0
        | none => 0
    match deliveryLocationOf o.address with
    | Except.error e => Except.error e
    | Except.ok delivery =>
      Except.ok (some
        { USER_ID := o.user_id.getD unknown,
          ITEM_ID := item.product_id.getD unknown,
          EVENT_TYPE := EventType_PURCHASE,
          TIMESTAMP := item.created_at,
          SHOP_ID := o.shop_id.getD unknown,
          EVENT_VALUE := calculate_event_value o?,
          ORDER_VALUE := order_value,
          BASKET_SIZE := item.quantity.getD 1,
          DELIVERY_LOCATION := to_lower_strip delivery,
          PAYMENT_METHOD := get_payment_method_name (o.payment_method_id.getD unknown) })

/-- `_get_buy_product_interactions`: sequential loop over the order
items; a transform returning `None` is skipped (`continue`), an exception
propagates and aborts the whole batch, discarding collected records. -/
def get_buy_product_interactions (items : List OrderItem) :
    Except Unit (List PersonalizeRecord) :=
  match items with
  | [] => Except.ok []
  | item :: rest =>
    match transform_order_item_to_personalize item with
    | Except.error e => Except.error e
    | Except.ok none => get_buy_product_interactions rest
    | Except.ok (some r) =>
      match get_buy_product_interactions rest with
      | Except.error e => Except.error e
      | Except.ok rs => Except.ok (r :: rs)

/-! ## Review transform -/

/-- A feedback (review) record, timestamps already converted. -/
structure Feedback where
  user_id : Option String
  target_id : Option String
  shop_id : Option String
  created_at : Option Int
  vote_star : Option ℚ
deriving DecidableEq

/-- `_transform_feedback_to_personalize(feedback)`. -/
def transform_feedback_to_personalize (fb : Feedback) : PersonalizeRecord :=
  { USER_ID := fb.user_id.getD unknown,
    ITEM_ID := fb.target_id.getD unknown,
    EVENT_TYPE := EventType_REVIEW,
    TIMESTAMP := fb.created_at,
    SHOP_ID := fb.shop_id.getD unknown,
    EVENT_VALUE := some (fb.vote_star.getD 0),
    ORDER_VALUE := 0,
    BASKET_SIZE := 0,
    PAYMENT_METHOD := unknown,
    DELIVERY_LOCATION := unknown }

/-- `_get_feeback_interactions`: every transformed dict is truthy, so the
falsy check never skips and the loop is a plain map. -/
def get_feedback_interactions (fbs : List Feedback) : List PersonalizeRecord :=
  fbs.map transform_feedback_to_personalize

/-! ## Category tree (`app/db/repositories/ecategory.py`)

Category ids are opaque Mongo ids; they are modelled as `Nat`. -/

/-- A flat category entry (`{id, name, level, parent_id}`), the shape
produced by `flatten_tree` and consumed by `build_tree` (which ignores
`level`). -/
structure FlatCat where
  id : Nat
  name : String
  level : Nat
  parent_id : Option Nat
deriving DecidableEq

/-- A built category node: `build_tree` stores `id`, `name` and the
recursively built `childs` (it also stores a `level` that `flatten_tree`
recomputes and never reads, so it is not modelled). -/
inductive CatNode where
  | mk : Nat → String → List CatNode → CatNode

/-- Node id accessor. -/
def CatNode.id : CatNode → Nat
  | CatNode.mk i _ _ => i

/-- Node name accessor. -/
def CatNode.name : CatNode → String
  | CatNode.mk _ n _ => n

/-- Node children accessor. -/
def CatNode.childs : CatNode → List CatNode
  | CatNode.mk _ _ cs => cs

/-- `build_tree(data, parent_id, res, level)`: appends, in data order,
every item whose `parent_id` matches, recursing into its children with
the same full `data` list.  The recursion is not structural in Lean, so a
fuel parameter bounds the depth; Python diverges exactly where the fuel
would run out (a parent cycle), and `get_tree_all` supplies enough fuel
for every acyclic input. -/
def buildTree (data : List FlatCat) (parent : Option Nat) (level : Nat) :
    Nat → List CatNode
  | 0 => []
  | fuel + 1 =>
    (data.filter (fun item => item.parent_id == parent)).map
      (fun item => CatNode.mk item.id item.name
        (buildTree data (some item.id) (level + 1) fuel))

/-- `get_tree_all(data, root_category=None)`: deep-copies, resets
`childs` (both implicit in the pure embedding) and builds from the root
anchor at level 1. -/
def get_tree_all (data : List FlatCat) (root_category : Option Nat) : List CatNode :=
  buildTree data root_category 1 (data.length + 1)

/-- `flatten_tree(tree, level=1, parent_id=None)`: depth-first,
parent-before-child flattening with recomputed levels. -/
def flatten_tree : List CatNode → Nat → Option Nat → List FlatCat
  | [], _, _ => []
  | CatNode.mk i nm cs :: rest, level, parent =>
    { id := i, name := nm, level := level, parent_id := parent } ::
      (flatten_tree cs (level + 1) (some i) ++ flatten_tree rest level parent)

/-- All node ids of a forest, depth-first. -/
def forestIds : List CatNode → List Nat
  | [] => []
  | CatNode.mk i _ cs :: rest => i :: (forestIds cs ++ forestIds rest)

/-- All nodes of a forest, depth-first. -/
def nodesOf : List CatNode → List CatNode
  | [] => []
  | CatNode.mk i nm cs :: rest =>
    CatNode.mk i nm cs :: (nodesOf cs ++ nodesOf rest)

/-- Depth (longest root-to-leaf chain) of a forest. -/
def forestDepth : List CatNode → Nat
  | [] => 0
  | CatNode.mk _ _ cs :: rest => max (forestDepth cs + 1) (forestDepth rest)

/-- Structural induction principle for category forests (the nested
inductive needs an explicit recursor over lists of nodes). -/
theorem forest_induction (P : List CatNode → Prop)
    (hnil : P [])
    (hcons : ∀ i nm cs rest, P cs → P rest → P (CatNode.mk i nm cs :: rest)) :
    ∀ ts, P ts
  | [] => hnil
  | CatNode.mk i nm cs :: rest =>
    hcons i nm cs rest (forest_induction P hnil hcons cs)
      (forest_induction P hnil hcons rest)

/-! ## Product service (`app/services/product/product.py`) -/

/-- `ProductStatus` constants. -/
def ProductStatus_DELETED : String := "deleted"

def ProductStatus_ACTIVE : String := "active"

def ProductStatus_DRAFT : String := "draft"

def ProductStatus_UNAVAILABLE : String := "unavailable"

/-- One entry of `product_details`: the first `category_info` element's
english name selects the collector, `values` / `value` carry the data. -/
structure ProductDetail where
  category_name_en : Option String
  values : Option (List String)
  value : Option String
deriving DecidableEq

/-- A raw product row as consumed by `_process_single_product`. -/
structure Product where
  _id : Option String
  deleted_at : Option String
  shop_id : Option String
  is_approved : Option String
  allow_to_sell : Option Bool
  is_sold_out : Option Bool
  variants : List Variant
  before_sale_price : Option ℚ
  sale_price : Option ℚ
  product_details : List ProductDetail
  list_category_id : List Nat
  createdAt : Option Int
deriving DecidableEq

/-- `_is_product_deleted(product)`. -/
def is_product_deleted (p : Product) : Bool :=
  p.deleted_at ≠ none

/-- Python truthiness of an optional boolean field. -/
def truthyBool : Option Bool → Bool
  | none => false
  | some b => b

/-- The `product.get("shop_id") not in available_shops` membership test:
a missing `shop_id` (`None not in available_shops`) is never a member. -/
def shopIdAvailable (shop_id : Option String) (available_shops : List String) : Bool :=
  match shop_id with
  | some s => available_shops.contains s
  | none => false

/-- `_determine_product_status(product, available_shops)`: the
first-match-wins chain deleted → (shop not available) unavailable →
active → draft → unavailable.  `is_sold_out` must be literally `False`
(`is False` in the source). -/
def determine_product_status (p : Product) (available_shops : List String) : String :=
  if is_product_deleted p then ProductStatus_DELETED
  else if ! shopIdAvailable p.shop_id available_shops then ProductStatus_UNAVAILABLE
  else if p.is_approved = some "approved" ∧ truthyBool p.allow_to_sell ∧
      p.is_sold_out = some false then ProductStatus_ACTIVE
  else if p.is_approved = some "draft" then ProductStatus_DRAFT
  else ProductStatus_UNAVAILABLE

/-- The four running min/max registers of `_price_min_max_variants`. -/
structure PriceMinMax where
  sale_min : Option ℚ
  sale_max : Option ℚ
  before_min : Option ℚ
  before_max : Option ℚ
deriving DecidableEq

/-- One running-minimum update of `_price_min_max_variants`: a `None`
price leaves the register, a price strictly below the register (or an
unset register) replaces it.  There is no positivity check. -/
def updMin (price cur : Option ℚ) : Option ℚ :=
  match price, cur with
  | none, m => m
  | some x, none => some x
  | some x, some m => if x < m then some x else some m

/-- One running-maximum update of `_price_min_max_variants`. -/
def updMax (price cur : Option ℚ) : Option ℚ :=
  match price, cur with
  | none, m => m
  | some x, none => some x
  | some x, some m => if x > m then some x else some m

/-- The loop body of `_price_min_max_variants`: each non-`None` price
updates its running min/max. -/
def priceLoop : List Variant → Option ℚ → Option ℚ → Option ℚ → Option ℚ → PriceMinMax
  | [], sMin, sMax, bMin, bMax =>
    { sale_min := sMin, sale_max := sMax, before_min := bMin, before_max := bMax }
  | item :: rest, sMin, sMax, bMin, bMax =>
    priceLoop rest (updMin item.sale_price sMin) (updMax item.sale_price sMax)
      (updMin item.before_sale_price bMin) (updMax item.before_sale_price bMax)

/-- `_price_min_max_variants(variants)`. -/
def price_min_max_variants (variants : List Variant) : PriceMinMax :=
  priceLoop variants none none none none

/-- `extract_price_info(product)`: variant-derived before-sale min/max
when the variant list is truthy (non-empty), otherwise both bounds fall
back to the product's own `before_sale_price`. -/
def extract_price_info (p : Product) : Option ℚ × Option ℚ :=
  if p.variants.isEmpty then
    (p.before_sale_price, p.before_sale_price)
  else
    let pv := price_min_max_variants p.variants
    (pv.before_min, pv.before_max)

/-- `_get_category_name_from_detail(detail)`. -/
def get_category_name_from_detail (d : ProductDetail) : Option String :=
  d.category_name_en

/-- `_extract_values_from_detail(detail)`: prefers a truthy `values`
list (keeping truthy elements), then a truthy `value`. -/
def extract_values_from_detail (d : ProductDetail) : List String :=
  match d.values with
  | some vs =>
    if vs.isEmpty then
      match d.value with
      | some v => if v = "" then [] else [v]
      | none => []
    else vs.filter (fun v => v ≠ "")
  | none =>
    match d.value with
    | some v => if v = "" then [] else [v]
    | none => []

/-- `_join_values(values)`. -/
def join_values (values : List String) : String :=
  if values.isEmpty then unknown else String.intercalate "|" values

/-- The per-collector gathering loop of `_extract_product_details`. -/
def collectDetailValues (details : List ProductDetail) (category : String) : List String :=
  details.foldl (fun acc d =>
    if get_category_name_from_detail d = some category then
      acc ++ extract_values_from_detail d
    else acc) []

/-- The processed detail record (gender, origin, style, seasons; brand is
collected but commented out of the output record). -/
structure ProcessedProductDetails where
  gender : String
  origin : String
  style : String
  seasons : String
deriving DecidableEq

/-- `_extract_product_details(product)`: collect per category, join, and
normalize the gender literals. -/
def extract_product_details (p : Product) : ProcessedProductDetails :=
  if p.product_details.isEmpty then
    { gender := unknown, origin := unknown, style := unknown, seasons := unknown }
  else
    let gender0 := join_values (collectDetailValues p.product_details "Gender")
    let gender :=
      if gender0 = "Nữ" then "female"
      else if gender0 = "Nam" then "male"
      else if gender0 = "Unisex" then "unisex"
      else unknown
    { gender := gender,
      origin := join_values (collectDetailValues p.product_details "Origin"),
      style := join_values (collectDetailValues p.product_details "Style"),
      seasons := join_values (collectDetailValues p.product_details "Season") }

/-- `find_category_by_id(categories, category_id)`. -/
def find_category_by_id (categories : List FlatCat) (category_id : Nat) : Option FlatCat :=
  categories.find? (fun cat => cat.id == category_id)

/-- `_get_category_name_by_level(category_ids, array_index, flat_categories)`. -/
def get_category_name_by_level (category_ids : List Nat) (array_index : Nat)
    (flat_categories : List FlatCat) : String :=
  if category_ids.isEmpty then unknown
  else
    match category_ids[array_index]? with
    | none => unknown
    | some category_id =>
      -- `if not category_id:` — a falsy id (modelled by 0) yields unknown
      if category_id = 0 then unknown
      else
        match find_category_by_id flat_categories category_id with
        | some cat => cat.name
        | none => unknown

/-- The flat personalize product record (`ITEM_ID`, status, demographic
tags, price range, four category levels, optional creation timestamp). -/
structure ProductRecord where
  ITEM_ID : String
  ITEM_STATUS : String
  GENDER : String
  ORIGIN : String
  STYLE : String
  SEASONS : String
  PRICE_MIN : Option ℚ
  PRICE_MAX : Option ℚ
  CATEGORY_L1 : String
  CATEGORY_L2 : String
  CATEGORY_L3 : String
  CATEGORY_L4 : String
  TIMESTAMP : Option Int
deriving DecidableEq

/-- `_process_single_product(product, flat_categories, available_shops)`.
`product["_id"]` is a bare subscript: a missing `_id` raises, modelled by
`Except.error`; every other access is defaulted. -/
def process_single_product (p : Product) (flat_categories : List FlatCat)
    (available_shops : List String) : Except Unit ProductRecord :=
  match p._id with
  | none => Except.error ()
  | some pid =>
    let details := extract_product_details p
    let price := extract_price_info p
    Except.ok
      { ITEM_ID := pid,
        ITEM_STATUS := determine_product_status p available_shops,
        GENDER := to_lower_strip details.gender,
        ORIGIN := to_lower_strip details.origin,
        STYLE := to_lower_strip details.style,
        SEASONS := to_lower_strip details.seasons,
        PRICE_MIN := price.1,
        PRICE_MAX := price.2,
        CATEGORY_L1 := to_lower_strip (get_category_name_by_level p.list_category_id 0 flat_categories),
        CATEGORY_L2 := to_lower_strip (get_category_name_by_level p.list_category_id 1 flat_categories),
        CATEGORY_L3 := to_lower_strip (get_category_name_by_level p.list_category_id 2 flat_categories),
        CATEGORY_L4 := to_lower_strip (get_category_name_by_level p.list_category_id 3 flat_categories),
        TIMESTAMP := match p.createdAt with
          | some t => if t ≠ 0 then some t else none
          | none => none }

/-- `_process_products_for_personalize(raw_products)` (with the shared
flat-category and active-shop snapshots passed in): the per-product
`try`/`except` skips a failing product and continues. -/
def process_products_for_personalize (raws : List Product)
    (flat_categories : List FlatCat) (available_shops : List String) :
    List ProductRecord :=
  match raws with
  | [] => []
  | p :: rest =>
    match process_single_product p flat_categories available_shops with
    | Except.ok r => r :: process_products_for_personalize rest flat_categories available_shops
    | Except.error _ => process_products_for_personalize rest flat_categories available_shops

/-! ## Paginated fetcher (`_execute_tracking_query_paginated`)

The cursor-paginated Firestore query over an immutable result snapshot is
modelled by an index into a list of documents: `start_after(last_doc)`
with the last document of the previous batch is `List.drop pos`, and
`limit(k)` is `List.take k`.  A transient fetch error on the `failAt`-th
call (0-based) is the one modelled exception source; the per-document
conversion of `_handle_interaction_data` is orthogonal to pagination and
not modelled.  Python truthiness of `limit` (`if limit:`) makes
`limit = 0` behave as "no limit". -/

/-- The fixed `batch_size = 1000`. -/
def batchSize : Nat := 1000

/-- Python truthiness of the optional `limit` argument. -/
def truthyLimit : Option Nat → Bool
  | none => false
  | some l => l ≠ 0

/-- The `while True` loop of `_execute_tracking_query_paginated`:
`pos` is the cursor (documents already consumed), `callIdx` counts
fetches, `acc` the accumulated results.  A fetch returns
`(docs.drop pos).take current`, except that fetch number `failAt`
(0-based) raises.  Breaks: remaining budget exhausted, fetch error,
empty batch, short batch. -/
def paginateGo {α : Type} (docs : List α) (limit : Option Nat) (failAt : Option Nat)
    (pos callIdx : Nat) (acc : List α) : List α :=
  let remaining := if truthyLimit limit then (limit.getD 0) - acc.length else batchSize
  if hrem : remaining = 0 then acc
  else
    let current := min batchSize remaining
    if failAt = some callIdx then acc
    else
      let batch := (docs.drop pos).take current
      if hne : batch.isEmpty then acc
      else if batch.length < current then acc ++ batch
      else paginateGo docs limit failAt (pos + batch.length) (callIdx + 1) (acc ++ batch)
termination_by docs.length - pos
decreasing_by
  have hpos : pos < docs.length := by
    by_contra hge
    apply hne
    show (List.take current (List.drop pos docs)).isEmpty = true
    rw [List.drop_eq_nil_of_le (Nat.le_of_not_lt hge), List.take_nil]
    rfl
  have hlen : 0 < batch.length := by
    rcases hb : batch with _ | ⟨a, t⟩
    · rw [hb] at hne
      exact absurd rfl hne
    · simp
  show docs.length - (pos + batch.length) < docs.length - pos
  omega

/-- `_execute_tracking_query_paginated(base_query, limit=None)` including
the final `all_results[:limit]` truncation guard. -/
def execute_tracking_query_paginated {α : Type} (docs : List α)
    (limit : Option Nat) (failAt : Option Nat) : List α :=
  let res := paginateGo docs limit failAt 0 0 []
  if truthyLimit limit ∧ limit.getD 0 < res.length then res.take (limit.getD 0)
  else res

/-! # Theorems -/

/-! ## C1 — purchase event-value scorer -/

/-- The COD sub-table of the code agrees with the spec table row by row. -/
theorem cod_eq_specCod : ∀ s p : String,
    calculate_cod_event_value s p = specCodValue s p := by
  intro s p
  simp only [calculate_cod_event_value, specCodValue, List.mem_cons,
    List.mem_singleton, List.not_mem_nil, or_false]

/-- The e-payment sub-table of the code agrees with the spec table. -/
theorem epayment_eq_specEpayment : ∀ s p : String,
    calculate_epayment_event_value s p = specEpaymentValue s p := by
  intro s p
  simp only [calculate_epayment_event_value, specEpaymentValue, List.mem_cons,
    List.mem_singleton, List.not_mem_nil, or_false]

/-- C1: the purchase scorer first classifies the payment method into
cod (the cash id) / epayment (the static id set) / unknown, and then
returns exactly the tabulated value: the whole scorer refines the spec
table (conjunct 1); a COD order with shipping `shipping` and payment
`paid` scores 5 (conjunct 2); an e-payment order with shipping `pending`
and payment `pending` scores 1 (conjunct 3); an unknown payment method
scores 0.5 regardless of statuses (conjunct 4); a combination not listed
in the cod table yields no value — the caller observes `none`
(conjunct 5, via the spec table's `none` rows). -/
theorem C1_event_value_scorer :
    (∀ o : Order,
      calculate_event_value (some o) =
        specPurchaseValue (o.payment_method_id.getD "")
          (lower (o.shipping_status.getD "")) (lower (o.payment_status.getD ""))) ∧
    (∀ o : Order, o.payment_method_id = some CASH_ID →
      o.shipping_status = some "shipping" → o.payment_status = some "paid" →
      calculate_event_value (some o) = some 5) ∧
    (∀ o : Order, ∀ pm : String, o.payment_method_id = some pm →
      pm ∈ E_PAYMENT_IDS →
      o.shipping_status = some "pending" → o.payment_status = some "pending" →
      calculate_event_value (some o) = some 1) ∧
    (∀ o : Order, (o.payment_method_id.getD "") ≠ CASH_ID →
      (o.payment_method_id.getD "") ∉ E_PAYMENT_IDS →
      calculate_event_value (some o) = some (1/2)) ∧
    (∀ s p : String, specCodValue s p = none → calculate_cod_event_value s p = none) ∧
    (∀ s p : String, specEpaymentValue s p = none →
      calculate_epayment_event_value s p = none) := by
  refine ⟨?_, ?_, ?_, ?_, ?_, ?_⟩
  · intro o
    simp only [calculate_event_value, specPurchaseValue]
    split_ifs
    · exact cod_eq_specCod _ _
    · exact epayment_eq_specEpayment _ _
    · rfl
  · intro o h1 h2 h3
    simp only [calculate_event_value, h1, h2, h3]
    rfl
  · intro o pm h1 hmem h2 h3
    have hne : pm ≠ CASH_ID := by
      intro h
      subst h
      revert hmem
      decide
    simp only [calculate_event_value, h1, h2, h3, Option.getD_some]
    rw [if_neg hne, if_pos hmem]
    rfl
  · intro o h1 h2
    simp only [calculate_event_value]
    rw [if_neg h1, if_neg h2]
  · intro s p h
    rw [cod_eq_specCod, h]
  · intro s p h
    rw [epayment_eq_specEpayment, h]

/-- A concrete COD order in state shipping/paid. -/
def ordCodW : Order :=
  { payment_method_id := some CASH_ID, shipping_status := some "shipping",
    payment_status := some "paid", shop_id := none, user_id := none,
    address := PyField.missing }

/-- A concrete MOMO (e-payment) order in state pending/pending. -/
def ordEpayW : Order :=
  { payment_method_id := some "6080f319ca33c1913de1be36",
    shipping_status := some "pending", payment_status := some "pending",
    shop_id := none, user_id := none, address := PyField.missing }

/-- A concrete unknown-payment-method order. -/
def ordUnknownW : Order :=
  { payment_method_id := some "bank-transfer", shipping_status := some "shipped",
    payment_status := some "paid", shop_id := none, user_id := none,
    address := PyField.missing }

/-- Witness for C1 at concrete orders. -/
theorem C1_event_value_scorer_witness :
    calculate_event_value (some ordCodW) = some 5 ∧
    calculate_event_value (some ordEpayW) = some 1 ∧
    calculate_event_value (some ordUnknownW) = some (1/2) ∧
    calculate_cod_event_value "pending" "paid" = none := by
  obtain ⟨h1, h2, h3, h4, h5, h6⟩ := C1_event_value_scorer
  refine ⟨h2 ordCodW rfl rfl rfl, ?_, h4 ordUnknownW (by decide) (by decide), ?_⟩
  · exact h3 ordEpayW "6080f319ca33c1913de1be36" rfl (by decide) rfl rfl
  · exact h5 "pending" "paid" (by decide)

/-! ## C4 — product status resolver -/

/-- C4: the status resolver is the first-match-wins chain
deleted → unavailable (shop not active) → active → draft → unavailable,
and a deleted product resolves to deleted even when approved. -/
theorem C4_product_status_resolver :
    (∀ (p : Product) (shops : List String), p.deleted_at ≠ none →
      determine_product_status p shops = "deleted") ∧
    (∀ (p : Product) (shops : List String), p.deleted_at = none →
      shopIdAvailable p.shop_id shops = false →
      determine_product_status p shops = "unavailable") ∧
    (∀ (p : Product) (shops : List String), p.deleted_at = none →
      shopIdAvailable p.shop_id shops = true →
      p.is_approved = some "approved" → truthyBool p.allow_to_sell = true →
      p.is_sold_out = some false →
      determine_product_status p shops = "active") ∧
    (∀ (p : Product) (shops : List String), p.deleted_at = none →
      shopIdAvailable p.shop_id shops = true →
      ¬ (p.is_approved = some "approved" ∧ truthyBool p.allow_to_sell ∧
        p.is_sold_out = some false) →
      p.is_approved = some "draft" →
      determine_product_status p shops = "draft") ∧
    (∀ (p : Product) (shops : List String), p.deleted_at = none →
      shopIdAvailable p.shop_id shops = true →
      ¬ (p.is_approved = some "approved" ∧ truthyBool p.allow_to_sell ∧
        p.is_sold_out = some false) →
      p.is_approved ≠ some "draft" →
      determine_product_status p shops = "unavailable") ∧
    (∀ (s : String) (shops : List String),
      shopIdAvailable (some s) shops = true ↔ s ∈ shops) ∧
    (∀ shops : List String, shopIdAvailable none shops = false) ∧
    (∀ (p : Product) (shops : List String), p.deleted_at = some "2024-01-01" →
      p.is_approved = some "approved" →
      determine_product_status p shops = "deleted") := by
  have hdel : ∀ (p : Product) (shops : List String), p.deleted_at ≠ none →
      determine_product_status p shops = "deleted" := by
    intro p shops h
    simp [determine_product_status, ProductStatus_DELETED, is_product_deleted, h]
  refine ⟨hdel, ?_, ?_, ?_, ?_, ?_, ?_, ?_⟩
  · intro p shops h1 h2
    simp [determine_product_status, is_product_deleted, h1, h2,
      ProductStatus_UNAVAILABLE]
  · intro p shops h1 h2 h3 h4 h5
    simp [determine_product_status, is_product_deleted, h1, h2, h3, h4, h5,
      ProductStatus_ACTIVE]
  · intro p shops h1 h2 h3 h4
    simp only [determine_product_status, is_product_deleted, h1, h2]
    simp [h3, h4, ProductStatus_DRAFT]
  · intro p shops h1 h2 h3 h4
    simp only [determine_product_status, is_product_deleted, h1, h2]
    simp [h3, h4, ProductStatus_UNAVAILABLE]
  · intro s shops
    simp [shopIdAvailable]
  · intro shops
    simp [shopIdAvailable]
  · intro p shops h1 h2
    exact hdel p shops (by simp [h1])

/-- A deleted-but-approved product (everything else active-looking). -/
def prodDeletedW : Product :=
  { _id := some "p1", deleted_at := some "2024-01-01", shop_id := some "s1",
    is_approved := some "approved", allow_to_sell := some true,
    is_sold_out := some false, variants := [], before_sale_price := none,
    sale_price := none, product_details := [], list_category_id := [],
    createdAt := none }

/-- Witness for C4: deletion takes precedence over approval, and each
branch fires on a concrete product. -/
theorem C4_product_status_resolver_witness :
    determine_product_status prodDeletedW ["s1"] = "deleted" ∧
    determine_product_status
      { prodDeletedW with deleted_at := none, shop_id := some "nope" } ["s1"] =
        "unavailable" ∧
    determine_product_status { prodDeletedW with deleted_at := none } ["s1"] =
      "active" ∧
    determine_product_status
      { prodDeletedW with deleted_at := none, is_approved := some "draft" } ["s1"] =
        "draft" ∧
    determine_product_status
      { prodDeletedW with deleted_at := none, is_approved := some "rejected" } ["s1"] =
        "unavailable" := by
  obtain ⟨h1, h2, h3, h4, h5, h6, h7, h8⟩ := C4_product_status_resolver
  refine ⟨h8 prodDeletedW ["s1"] rfl rfl, ?_, ?_, ?_, ?_⟩
  · exact h2 _ _ rfl (by decide)
  · exact h3 _ _ rfl (by decide) rfl rfl rfl
  · exact h4 _ _ rfl (by decide) (by decide) rfl
  · exact h5 _ _ rfl (by decide) (by decide) (by decide)

/-! ## C10 — only truthy timestamps produce behavioral records -/

/-- The fan-out loop keeps exactly the truthy timestamps, in order. -/
theorem filterMap_timestamps (raw : RawInteraction) :
    ∀ l : List (Option Int),
      (l.filterMap (fun t =>
        match t with
        | some ts => if ts ≠ 0 then some (behavioralRecord raw ts) else none
        | none => none)).map PersonalizeRecord.TIMESTAMP
      = l.filter truthyTimestamp := by
  intro l
  induction l with
  | nil => rfl
  | cons t rest ih =>
    cases t with
    | none => simpa [truthyTimestamp] using ih
    | some ts =>
      by_cases h : ts = 0
      · subst h
        simpa [truthyTimestamp] using ih
      · simpa [truthyTimestamp, h, behavioralRecord] using ih

/-- C10: a behavioral record is emitted only for truthy timestamps —
the emitted `TIMESTAMP`s are exactly the truthy entries of the
considered list (`visited_ats`, or `[created_at]` when empty), and the
output count is the number of truthy timestamps considered. -/
theorem C10_truthy_timestamp_fanout (raw : RawInteraction) :
    (process_interaction_for_personalize raw).map PersonalizeRecord.TIMESTAMP =
      (if raw.visited_ats.isEmpty then [raw.created_at]
        else raw.visited_ats).filter truthyTimestamp ∧
    (process_interaction_for_personalize raw).length =
      (if raw.visited_ats.isEmpty then [raw.created_at]
        else raw.visited_ats).countP truthyTimestamp := by
  constructor
  · exact filterMap_timestamps raw _
  · have h := congrArg List.length (filterMap_timestamps raw
      (if raw.visited_ats.isEmpty then [raw.created_at] else raw.visited_ats))
    simpa [process_interaction_for_personalize, List.countP_eq_length_filter] using h

/-! ## C3 — behavioral fan-out -/

/-- A raw behavioral event with three entries in `visited_ats`, one of
which is a (falsy) zero timestamp. -/
def rawZeroEntryC3 : RawInteraction :=
  { actor_id := some "u1", target_id := some "i1",
    action_type := some "view_product", shop_id := some "s1",
    created_at := some 99, visited_ats := [some 1, some 0, some 2] }

/-- C3 counterexample: a raw event whose `visited_ats` is a non-empty
three-entry list yields only 2 records, not 3 — zero (falsy) timestamps
are dropped by the fan-out. -/
theorem C3_counterexample :
    rawZeroEntryC3.visited_ats = [some 1, some 0, some 2] ∧
    (process_interaction_for_personalize rawZeroEntryC3).length ≠ 3 := by
  constructor
  · rfl
  · decide

/-- C3 (amended): for a `visited_ats` of three truthy (non-null,
non-zero) timestamps, exactly 3 records are emitted, one per entry in
order, sharing actor, target and the single computed event value, the
i-th carrying the i-th timestamp; for an empty `visited_ats` and a
truthy `created_at`, exactly one record is emitted at `created_at`. -/
theorem C3_fanout_three_truthy :
    (∀ (raw : RawInteraction) (t1 t2 t3 : Int),
      raw.visited_ats = [some t1, some t2, some t3] →
      t1 ≠ 0 → t2 ≠ 0 → t3 ≠ 0 →
      process_interaction_for_personalize raw =
        [behavioralRecord raw t1, behavioralRecord raw t2, behavioralRecord raw t3] ∧
      (process_interaction_for_personalize raw).length = 3 ∧
      (∀ r ∈ process_interaction_for_personalize raw,
        r.USER_ID = raw.actor_id.getD unknown ∧
        r.ITEM_ID = raw.target_id.getD unknown ∧
        r.EVENT_VALUE = some (event_value_mapping (raw.action_type.getD unknown))) ∧
      (process_interaction_for_personalize raw).map PersonalizeRecord.TIMESTAMP =
        [some t1, some t2, some t3]) ∧
    (∀ (raw : RawInteraction) (c : Int),
      raw.visited_ats = [] → raw.created_at = some c → c ≠ 0 →
      process_interaction_for_personalize raw = [behavioralRecord raw c]) := by
  constructor
  · intro raw t1 t2 t3 hv h1 h2 h3
    have hp : process_interaction_for_personalize raw =
        [behavioralRecord raw t1, behavioralRecord raw t2, behavioralRecord raw t3] := by
      simp [process_interaction_for_personalize, hv, h1, h2, h3]
    refine ⟨hp, by rw [hp]; rfl, ?_, by rw [hp]; rfl⟩
    intro r hr
    rw [hp] at hr
    simp only [List.mem_cons, List.not_mem_nil, or_false] at hr
    rcases hr with h | h | h <;> subst h <;>
      exact ⟨rfl, rfl, rfl⟩
  · intro raw c hv hc h
    simp [process_interaction_for_personalize, hv, hc, h]

/-- Witness for C3 (amended) at concrete raw events. -/
theorem C3_fanout_three_truthy_witness :
    process_interaction_for_personalize
      { rawZeroEntryC3 with visited_ats := [some 1, some 5, some 2] } =
      [behavioralRecord { rawZeroEntryC3 with visited_ats := [some 1, some 5, some 2] } 1,
       behavioralRecord { rawZeroEntryC3 with visited_ats := [some 1, some 5, some 2] } 5,
       behavioralRecord { rawZeroEntryC3 with visited_ats := [some 1, some 5, some 2] } 2] ∧
    process_interaction_for_personalize
      { rawZeroEntryC3 with visited_ats := [] } =
      [behavioralRecord { rawZeroEntryC3 with visited_ats := [] } 99] := by
  constructor
  · exact (C3_fanout_three_truthy.1 _ 1 5 2 rfl (by decide) (by decide) (by decide)).1
  · exact C3_fanout_three_truthy.2 _ 99 rfl rfl (by decide)

/-! ## C5 — price aggregation -/

/-- Spec-side minimum of a list of usable prices. -/
def listMin : List ℚ → Option ℚ
  | [] => none
  | x :: xs =>
    match listMin xs with
    | none => some x
    | some m => some (min x m)

/-- Spec-side maximum of a list of usable prices. -/
def listMax : List ℚ → Option ℚ
  | [] => none
  | x :: xs =>
    match listMax xs with
    | none => some x
    | some m => some (max x m)

/-- Minimum of two optional prices. -/
def optMin : Option ℚ → Option ℚ → Option ℚ
  | none, b => b
  | some x, none => some x
  | some x, some y => some (min x y)

/-- Maximum of two optional prices. -/
def optMax : Option ℚ → Option ℚ → Option ℚ
  | none, b => b
  | some x, none => some x
  | some x, some y => some (max x y)

theorem optMin_assoc (a b c : Option ℚ) :
    optMin (optMin a b) c = optMin a (optMin b c) := by
  cases a <;> cases b <;> cases c <;> simp [optMin, min_assoc]

theorem optMax_assoc (a b c : Option ℚ) :
    optMax (optMax a b) c = optMax a (optMax b c) := by
  cases a <;> cases b <;> cases c <;> simp [optMax, max_assoc]

/-- The strict-comparison update of the Python loop is `optMin` with a
singleton, and a `None` price is a no-op. -/
theorem updMin_eq (b : Option ℚ) (x : ℚ) :
    updMin (some x) b = optMin b (some x) := by
  cases b with
  | none => rfl
  | some m =>
    rcases lt_or_le x m with h | h
    · simp [updMin, optMin, h, min_eq_right (le_of_lt h)]
    · simp [updMin, optMin, not_lt.mpr h, min_eq_left h]

theorem updMax_eq (b : Option ℚ) (x : ℚ) :
    updMax (some x) b = optMax b (some x) := by
  cases b with
  | none => rfl
  | some m =>
    rcases lt_or_le m x with h | h
    · simp [updMax, optMax, h, max_eq_right (le_of_lt h)]
    · simp [updMax, optMax, not_lt.mpr h, max_eq_left h]

theorem listMin_cons (x : ℚ) (xs : List ℚ) :
    listMin (x :: xs) = optMin (some x) (listMin xs) := by
  cases h : listMin xs <;> simp [listMin, h, optMin]

theorem listMax_cons (x : ℚ) (xs : List ℚ) :
    listMax (x :: xs) = optMax (some x) (listMax xs) := by
  cases h : listMax xs <;> simp [listMax, h, optMax]

/-- Characterization of the single-pass loop: each register ends as the
optional min/max of its start value and the non-null prices of that
field. -/
theorem priceLoop_spec :
    ∀ (vars : List Variant) (sMin sMax bMin bMax : Option ℚ),
      (priceLoop vars sMin sMax bMin bMax).sale_min =
        optMin sMin (listMin (vars.filterMap Variant.sale_price)) ∧
      (priceLoop vars sMin sMax bMin bMax).sale_max =
        optMax sMax (listMax (vars.filterMap Variant.sale_price)) ∧
      (priceLoop vars sMin sMax bMin bMax).before_min =
        optMin bMin (listMin (vars.filterMap Variant.before_sale_price)) ∧
      (priceLoop vars sMin sMax bMin bMax).before_max =
        optMax bMax (listMax (vars.filterMap Variant.before_sale_price)) := by
  intro vars
  induction vars with
  | nil =>
    intro sMin sMax bMin bMax
    cases sMin <;> cases sMax <;> cases bMin <;> cases bMax <;>
      simp [priceLoop, listMin, listMax, optMin, optMax]
  | cons v rest ih =>
    intro sMin sMax bMin bMax
    rw [priceLoop]
    obtain ⟨i1, i2, i3, i4⟩ := ih
      (updMin v.sale_price sMin) (updMax v.sale_price sMax)
      (updMin v.before_sale_price bMin) (updMax v.before_sale_price bMax)
    refine ⟨?_, ?_, ?_, ?_⟩
    · rw [i1]
      cases hs : v.sale_price with
      | none => simp [hs, List.filterMap_cons, updMin]
      | some sp =>
        simp only [hs, List.filterMap_cons, listMin_cons]
        rw [updMin_eq, optMin_assoc]
    · rw [i2]
      cases hs : v.sale_price with
      | none => simp [hs, List.filterMap_cons, updMax]
      | some sp =>
        simp only [hs, List.filterMap_cons, listMax_cons]
        rw [updMax_eq, optMax_assoc]
    · rw [i3]
      cases hs : v.before_sale_price with
      | none => simp [hs, List.filterMap_cons, updMin]
      | some bp =>
        simp only [hs, List.filterMap_cons, listMin_cons]
        rw [updMin_eq, optMin_assoc]
    · rw [i4]
      cases hs : v.before_sale_price with
      | none => simp [hs, List.filterMap_cons, updMax]
      | some bp =>
        simp only [hs, List.filterMap_cons, listMax_cons]
        rw [updMax_eq, optMax_assoc]

/-- A product whose only variant carries the non-positive price 0 while
the product itself has `before_sale_price = 120`. -/
def prodZeroVariantC5 : Product :=
  { _id := some "p5", deleted_at := none, shop_id := none,
    is_approved := none, allow_to_sell := none, is_sold_out := none,
    variants := [{ sale_price := none, before_sale_price := some 0 }],
    before_sale_price := some 120, sale_price := none,
    product_details := [], list_category_id := [], createdAt := none }

/-- C5 counterexample: the claim predicts that the non-positive variant
price 0 is ignored and the fallback yields `(120, 120)`; the code keeps
the 0 (only `None` prices are skipped) and never falls back when the
variant list is non-empty. -/
theorem C5_counterexample :
    extract_price_info prodZeroVariantC5 = (some 0, some 0) ∧
    extract_price_info prodZeroVariantC5 ≠ (some 120, some 120) := by
  constructor
  · rfl
  · intro h
    have h0 : (some (0:ℚ), some (0:ℚ)) = ((some 120 : Option ℚ), (some 120 : Option ℚ)) := by
      rw [← h]
      rfl
    simp only [Prod.mk.injEq, Option.some.injEq] at h0
    have := h0.1
    norm_num at this

/-- C5 (amended): the single pass tracks running min/max of each price
field ignoring only null (`None`) values — non-positive prices
participate; and the fallback to the product's own `before_sale_price`
(both bounds equal) happens exactly when the variant list is empty, so a
product with no variants and `before_sale_price = 120` yields
`price_min = price_max = 120`. -/
theorem C5_price_aggregation :
    (∀ vars : List Variant,
      (price_min_max_variants vars).before_min =
        listMin (vars.filterMap Variant.before_sale_price) ∧
      (price_min_max_variants vars).before_max =
        listMax (vars.filterMap Variant.before_sale_price) ∧
      (price_min_max_variants vars).sale_min =
        listMin (vars.filterMap Variant.sale_price) ∧
      (price_min_max_variants vars).sale_max =
        listMax (vars.filterMap Variant.sale_price)) ∧
    (∀ p : Product, ¬ p.variants.isEmpty →
      extract_price_info p =
        ((price_min_max_variants p.variants).before_min,
          (price_min_max_variants p.variants).before_max)) ∧
    (∀ p : Product, p.variants = [] →
      extract_price_info p = (p.before_sale_price, p.before_sale_price)) ∧
    (∀ p : Product, p.variants = [] → p.before_sale_price = some 120 →
      extract_price_info p = (some 120, some 120)) := by
  refine ⟨?_, ?_, ?_, ?_⟩
  · intro vars
    obtain ⟨h1, h2, h3, h4⟩ := priceLoop_spec vars none none none none
    exact ⟨h3, h4, h1, h2⟩
  · intro p hv
    simp [extract_price_info, hv]
  · intro p hv
    simp [extract_price_info, hv]
  · intro p hv hb
    simp [extract_price_info, hv, hb]

/-- Witness for C5 (amended) at concrete products. -/
theorem C5_price_aggregation_witness :
    extract_price_info { prodZeroVariantC5 with variants := [] } =
      (some 120, some 120) ∧
    extract_price_info prodZeroVariantC5 =
      ((price_min_max_variants prodZeroVariantC5.variants).before_min,
        (price_min_max_variants prodZeroVariantC5.variants).before_max) := by
  constructor
  · exact C5_price_aggregation.2.2.2 _ rfl rfl
  · exact C5_price_aggregation.2.1 _ (by decide)

/-! ## C2 — EVENT_VALUE definedness and sign -/

/-- The behavioral event-value lookup is non-negative. -/
theorem event_value_mapping_nonneg (s : String) : 0 ≤ event_value_mapping s := by
  unfold event_value_mapping
  split_ifs <;> norm_num

/-- Every value the COD table defines is non-negative. -/
theorem cod_value_nonneg (s p : String) (v : ℚ)
    (h : calculate_cod_event_value s p = some v) : 0 ≤ v := by
  unfold calculate_cod_event_value at h
  split_ifs at h <;> simp only [Option.some.injEq] at h <;> rw [← h] <;> norm_num

/-- Every value the e-payment table defines is non-negative. -/
theorem epayment_value_nonneg (s p : String) (v : ℚ)
    (h : calculate_epayment_event_value s p = some v) : 0 ≤ v := by
  unfold calculate_epayment_event_value at h
  split_ifs at h <;> simp only [Option.some.injEq] at h <;> rw [← h] <;> norm_num

/-- Every value the purchase scorer defines is non-negative. -/
theorem calculate_event_value_nonneg (o : Option Order) (v : ℚ)
    (h : calculate_event_value o = some v) : 0 ≤ v := by
  cases o with
  | none =>
    simp only [calculate_event_value, Option.some.injEq] at h
    rw [← h]
  | some ord =>
    simp only [calculate_event_value] at h
    split_ifs at h
    · exact cod_value_nonneg _ _ _ h
    · exact epayment_value_nonneg _ _ _ h
    · simp only [Option.some.injEq] at h
      rw [← h]
      norm_num

/-- A purchase record's EVENT_VALUE is exactly what the scorer computed
on the head order of the item. -/
theorem transform_event_value (item : OrderItem) (r : PersonalizeRecord)
    (h : transform_order_item_to_personalize item = Except.ok (some r)) :
    ∃ o, item.order.head? = some o ∧ r.EVENT_VALUE = calculate_event_value o := by
  unfold transform_order_item_to_personalize at h
  rcases horder : item.order with _ | ⟨o, rest⟩
  · rw [horder] at h
    simp at h
  · rw [horder] at h
    dsimp only at h
    rcases hd : deliveryLocationOf ((o.getD emptyOrder).address) with e | d
    · rw [hd] at h
      simp at h
    · rw [hd] at h
      simp only [Except.ok.injEq, Option.some.injEq] at h
      exact ⟨o, rfl, by rw [← h]⟩

/-- C2 counterexample input: a COD order in the unlisted combination
shipping `pending` / payment `paid`. -/
def ordUnscoredC2 : Order :=
  { payment_method_id := some CASH_ID, shipping_status := some "pending",
    payment_status := some "paid", shop_id := some "s9", user_id := some "u9",
    address := PyField.missing }

/-- C2 counterexample input: the order item wrapping `ordUnscoredC2`. -/
def itemUnscoredC2 : OrderItem :=
  { order := [some ordUnscoredC2], product_id := some "prod9",
    quantity := some 2, created_at := some 77, variant := none, product := none }

/-- The record the purchase path emits for `itemUnscoredC2`. -/
def recUnscoredC2 : PersonalizeRecord :=
  { USER_ID := "u9", ITEM_ID := "prod9", EVENT_TYPE := EventType_PURCHASE,
    TIMESTAMP := some 77, SHOP_ID := "s9", EVENT_VALUE := none,
    ORDER_VALUE := 0, BASKET_SIZE := 2, PAYMENT_METHOD := "cash",
    DELIVERY_LOCATION := "unknown" }

/-- C2 counterexample: the purchase path emits a record whose
`EVENT_VALUE` is unset (`none`) — an unlisted COD combination is not
filtered out, so `EVENT_VALUE` is not always a defined non-negative
number. -/
theorem C2_counterexample :
    get_buy_product_interactions [itemUnscoredC2] = Except.ok [recUnscoredC2] ∧
    recUnscoredC2.EVENT_VALUE = none := ⟨rfl, rfl⟩

/-- C2 (amended): behavioral records always carry a defined
`EVENT_VALUE` `some v` with `0 ≤ v`; review records carry
`some (vote_star or 0)`, non-negative whenever the stored star is;
purchase records may carry `none` (exactly when the scorer has no row,
as the counterexample shows), but whenever their `EVENT_VALUE` is
defined it is non-negative. -/
theorem C2_event_value_definedness :
    (∀ (raw : RawInteraction) (r : PersonalizeRecord),
      r ∈ process_interaction_for_personalize raw →
      ∃ v, r.EVENT_VALUE = some v ∧ 0 ≤ v) ∧
    (∀ fb : Feedback,
      (transform_feedback_to_personalize fb).EVENT_VALUE =
        some (fb.vote_star.getD 0) ∧
      (0 ≤ fb.vote_star.getD 0 →
        ∃ v, (transform_feedback_to_personalize fb).EVENT_VALUE = some v ∧ 0 ≤ v)) ∧
    (∀ (items : List OrderItem) (rs : List PersonalizeRecord),
      get_buy_product_interactions items = Except.ok rs →
      ∀ r ∈ rs, ∀ v, r.EVENT_VALUE = some v → 0 ≤ v) := by
  refine ⟨?_, ?_, ?_⟩
  · intro raw r hr
    simp only [process_interaction_for_personalize, List.mem_filterMap] at hr
    obtain ⟨t, _, ht⟩ := hr
    rcases t with _ | ts
    · simp at ht
    · dsimp only at ht
      by_cases h0 : ts = 0
      · rw [if_neg (not_not_intro h0)] at ht
        exact absurd ht (by simp)
      · rw [if_pos h0] at ht
        have hrec : behavioralRecord raw ts = r := Option.some.inj ht
        refine ⟨event_value_mapping (raw.action_type.getD unknown), ?_,
          event_value_mapping_nonneg _⟩
        rw [← hrec]
        rfl
  · intro fb
    refine ⟨rfl, ?_⟩
    intro h
    exact ⟨fb.vote_star.getD 0, rfl, h⟩
  · intro items
    induction items with
    | nil =>
      intro rs h r hr v hv
      simp only [get_buy_product_interactions, Except.ok.injEq] at h
      rw [← h] at hr
      simp at hr
    | cons item rest ih =>
      intro rs h r hr v hv
      rw [get_buy_product_interactions] at h
      rcases ht : transform_order_item_to_personalize item with e | ro
      · rw [ht] at h
        simp at h
      · rw [ht] at h
        rcases ro with _ | r0
        · exact ih rs h r hr v hv
        · rcases hrec : get_buy_product_interactions rest with e | rs0
          · rw [hrec] at h
            simp at h
          · rw [hrec] at h
            simp only [Except.ok.injEq] at h
            rw [← h] at hr
            rcases List.mem_cons.mp hr with hr0 | hrrest
            · subst hr0
              obtain ⟨o, _, hev⟩ := transform_event_value item r ht
              rw [hev] at hv
              exact calculate_event_value_nonneg o v hv
            · exact ih rs0 hrec r hrrest v hv

/-- A well-scored COD order item (shipping/paid) for the witness. -/
def itemScoredC2 : OrderItem :=
  { order := [some { ordUnscoredC2 with shipping_status := some "shipping" }],
    product_id := some "prodA", quantity := some 1, created_at := some 3,
    variant := none, product := none }

/-- Witness for C2 (amended): concrete instances of all three paths. -/
theorem C2_event_value_definedness_witness :
    (∃ v, (behavioralRecord rawZeroEntryC3 1).EVENT_VALUE = some v ∧ 0 ≤ v) ∧
    (∃ v, (transform_feedback_to_personalize
      { user_id := some "u", target_id := some "t", shop_id := some "s",
        created_at := some 1, vote_star := some 4 }).EVENT_VALUE = some v ∧ 0 ≤ v) ∧
    (∀ r ∈ [recUnscoredC2], ∀ v, r.EVENT_VALUE = some v → 0 ≤ v) := by
  refine ⟨?_, ?_, ?_⟩
  · exact C2_event_value_definedness.1 rawZeroEntryC3 (behavioralRecord rawZeroEntryC3 1)
      (by rw [show process_interaction_for_personalize rawZeroEntryC3 =
        [behavioralRecord rawZeroEntryC3 1, behavioralRecord rawZeroEntryC3 2] from rfl]
          ; exact List.mem_cons_self _ _)
  · exact (C2_event_value_definedness.2.1 _).2 (by norm_num)
  · exact C2_event_value_definedness.2.2 [itemUnscoredC2] [recUnscoredC2] rfl

/-! ## C9 — per-record failure handling -/

/-- One step of the product-extraction loop. -/
theorem process_products_cons (p : Product) (ps : List Product)
    (flat : List FlatCat) (shops : List String) :
    process_products_for_personalize (p :: ps) flat shops =
      match process_single_product p flat shops with
      | Except.ok r => r :: process_products_for_personalize ps flat shops
      | Except.error _ => process_products_for_personalize ps flat shops := rfl

/-- One step of the purchase-normalization loop. -/
theorem get_buy_cons (item : OrderItem) (rest : List OrderItem) :
    get_buy_product_interactions (item :: rest) =
      match transform_order_item_to_personalize item with
      | Except.error e => Except.error e
      | Except.ok none => get_buy_product_interactions rest
      | Except.ok (some r) =>
        match get_buy_product_interactions rest with
        | Except.error e => Except.error e
        | Except.ok rs => Except.ok (r :: rs) := rfl

/-- An order whose `address` key is bound to `None`. -/
def ordNullAddrC9 : Order :=
  { payment_method_id := none, shipping_status := none, payment_status := none,
    shop_id := none, user_id := none, address := PyField.null }

/-- An order item whose joined order has `address = None`:
`buyer_address.get("country")` raises inside the transform. -/
def itemBadAddrC9 : OrderItem :=
  { order := [some ordNullAddrC9],
    product_id := some "bad", quantity := none, created_at := none,
    variant := none, product := none }

/-- A well-formed order item. -/
def itemGoodA_C9 : OrderItem :=
  { order := [some ordCodW], product_id := some "gA", quantity := some 1,
    created_at := some 1, variant := none, product := none }

/-- Another well-formed order item. -/
def itemGoodB_C9 : OrderItem :=
  { order := [some ordCodW], product_id := some "gB", quantity := some 1,
    created_at := some 2, variant := none, product := none }

/-- C9 counterexample: in the purchase path a single record whose
normalization raises aborts the whole batch (the result is an error and
the surrounding good records are lost), while the same batch without the
bad record succeeds — so a malformed record does NOT merely get skipped
in every path. -/
theorem C9_counterexample :
    get_buy_product_interactions [itemGoodA_C9, itemBadAddrC9, itemGoodB_C9] =
      Except.error () ∧
    (get_buy_product_interactions [itemGoodA_C9, itemGoodB_C9]).isOk = true :=
  ⟨rfl, rfl⟩

/-- C9 (amended): per-record failure recovery holds only in product
feature extraction — a failing product is skipped and the loop keeps the
other results (conjuncts 1 and 2); in the purchase path an item without
a parent order is skipped (conjunct 3), but an item whose transform
raises aborts the whole batch, discarding every collected record
(conjunct 4). -/
theorem C9_per_record_failure :
    (∀ (flat : List FlatCat) (shops : List String) (ps : List Product),
      process_products_for_personalize ps flat shops =
        ps.filterMap (fun p => (process_single_product p flat shops).toOption)) ∧
    (∀ (flat : List FlatCat) (shops : List String) (bad : Product)
      (xs ys : List Product),
      process_single_product bad flat shops = Except.error () →
      process_products_for_personalize (xs ++ bad :: ys) flat shops =
        process_products_for_personalize xs flat shops ++
          process_products_for_personalize ys flat shops) ∧
    (∀ (skip : OrderItem) (xs ys : List OrderItem),
      transform_order_item_to_personalize skip = Except.ok none →
      get_buy_product_interactions (xs ++ skip :: ys) =
        get_buy_product_interactions (xs ++ ys)) ∧
    (∀ (bad : OrderItem) (xs ys : List OrderItem),
      transform_order_item_to_personalize bad = Except.error () →
      get_buy_product_interactions (xs ++ bad :: ys) = Except.error ()) := by
  have hfm : ∀ (flat : List FlatCat) (shops : List String) (ps : List Product),
      process_products_for_personalize ps flat shops =
        ps.filterMap (fun p => (process_single_product p flat shops).toOption) := by
    intro flat shops ps
    induction ps with
    | nil => rfl
    | cons p rest ih =>
      rw [process_products_cons, List.filterMap_cons]
      cases hp : process_single_product p flat shops with
      | ok r => simp [Except.toOption, ih]
      | error e => simp [Except.toOption, ih]
  refine ⟨hfm, ?_, ?_, ?_⟩
  · intro flat shops bad xs ys hbad
    rw [hfm, hfm, hfm, List.filterMap_append, List.filterMap_cons, hbad]
    rfl
  · intro skip xs ys hskip
    induction xs with
    | nil =>
      rw [List.nil_append, List.nil_append, get_buy_cons, hskip]
    | cons x xs ih =>
      rw [List.cons_append, List.cons_append, get_buy_cons, get_buy_cons, ih]
  · intro bad xs ys hbad
    induction xs with
    | nil =>
      rw [List.nil_append, get_buy_cons, hbad]
    | cons x xs ih =>
      rw [List.cons_append, get_buy_cons, ih]
      cases ht : transform_order_item_to_personalize x with
      | error e => cases e; rfl
      | ok ro => cases ro <;> rfl

/-- A product without `_id` (fails extraction). -/
def prodNoIdC9 : Product :=
  { prodDeletedW with _id := none }

/-- Witness for C9 (amended): a failing product in the middle of a batch
is skipped; a skipping and an aborting order item behave as stated. -/
theorem C9_per_record_failure_witness :
    process_products_for_personalize [prodDeletedW, prodNoIdC9, prodDeletedW] [] ["s1"] =
      process_products_for_personalize [prodDeletedW] [] ["s1"] ++
        process_products_for_personalize [prodDeletedW] [] ["s1"] ∧
    get_buy_product_interactions
      [itemGoodA_C9,
        { itemBadAddrC9 with order := [] },
        itemGoodB_C9] =
      get_buy_product_interactions [itemGoodA_C9, itemGoodB_C9] ∧
    get_buy_product_interactions [itemGoodA_C9, itemBadAddrC9, itemGoodB_C9] =
      Except.error () := by
  refine ⟨?_, ?_, ?_⟩
  · exact C9_per_record_failure.2.1 [] ["s1"] prodNoIdC9 [prodDeletedW] [prodDeletedW] rfl
  · exact C9_per_record_failure.2.2.1 { itemBadAddrC9 with order := [] }
      [itemGoodA_C9] [itemGoodB_C9] rfl
  · exact C9_per_record_failure.2.2.2 itemBadAddrC9 [itemGoodA_C9] [itemGoodB_C9] rfl

/-! ## C8 — paginated fetcher -/

/-- One unfolded non-terminal step of the pagination loop. -/
theorem paginateGo_step {α : Type} (docs : List α) (limit failAt : Option Nat)
    (pos callIdx : Nat) (acc : List α)
    (hrem : (if truthyLimit limit then limit.getD 0 - acc.length else batchSize) ≠ 0)
    (hfail : failAt ≠ some callIdx) :
    paginateGo docs limit failAt pos callIdx acc =
      if ((docs.drop pos).take (min batchSize
          (if truthyLimit limit then limit.getD 0 - acc.length else batchSize))).isEmpty
      then acc
      else if ((docs.drop pos).take (min batchSize
          (if truthyLimit limit then limit.getD 0 - acc.length else batchSize))).length <
          min batchSize (if truthyLimit limit then limit.getD 0 - acc.length else batchSize)
      then acc ++ (docs.drop pos).take (min batchSize
          (if truthyLimit limit then limit.getD 0 - acc.length else batchSize))
      else paginateGo docs limit failAt
        (pos + ((docs.drop pos).take (min batchSize
          (if truthyLimit limit then limit.getD 0 - acc.length else batchSize))).length)
        (callIdx + 1)
        (acc ++ (docs.drop pos).take (min batchSize
          (if truthyLimit limit then limit.getD 0 - acc.length else batchSize))) := by
  rw [paginateGo]
  simp only [dif_neg hrem, if_neg hfail, dite_eq_ite]

/-- A falsy limit (`None` or `0`) makes every step request a full
`batch_size` batch. -/
theorem paginateGo_step_nolimit {α : Type} (docs : List α) (limit failAt : Option Nat)
    (pos callIdx : Nat) (acc : List α)
    (htr : truthyLimit limit = false) (hfail : failAt ≠ some callIdx) :
    paginateGo docs limit failAt pos callIdx acc =
      if ((docs.drop pos).take batchSize).isEmpty then acc
      else if ((docs.drop pos).take batchSize).length < batchSize then
        acc ++ (docs.drop pos).take batchSize
      else paginateGo docs limit failAt
        (pos + ((docs.drop pos).take batchSize).length) (callIdx + 1)
        (acc ++ (docs.drop pos).take batchSize) := by
  have hrem : (if truthyLimit limit then limit.getD 0 - acc.length else batchSize) ≠ 0 := by
    rw [htr]
    simp [batchSize]
  rw [paginateGo_step docs limit failAt pos callIdx acc hrem hfail]
  simp [htr]

/-- The loop stops as soon as the accumulated count reaches a truthy
limit. -/
theorem paginateGo_done {α : Type} (docs : List α) (l : Nat) (failAt : Option Nat)
    (pos callIdx : Nat) (acc : List α) (hl : l ≠ 0) (hacc : l ≤ acc.length) :
    paginateGo docs (some l) failAt pos callIdx acc = acc := by
  rw [paginateGo]
  have htr : truthyLimit (some l) = true := by simp [truthyLimit, hl]
  simp [htr, Nat.sub_eq_zero_of_le hacc]

/-- A fetch error aborts the loop and returns the accumulator. -/
theorem paginateGo_fail {α : Type} (docs : List α) (limit : Option Nat)
    (pos callIdx : Nat) (acc : List α)
    (hrem : (if truthyLimit limit then limit.getD 0 - acc.length else batchSize) ≠ 0) :
    paginateGo docs limit (some callIdx) pos callIdx acc = acc := by
  rw [paginateGo]
  simp [dif_neg hrem]

/-- With a falsy limit and no (reachable) fetch error the loop drains the
whole remaining store. -/
theorem paginateGo_drain {α : Type} (docs : List α) (limit failAt : Option Nat)
    (htr : truthyLimit limit = false) :
    ∀ (n pos callIdx : Nat) (acc : List α), docs.length - pos ≤ n →
      (∀ c, failAt = some c → c < callIdx) →
      paginateGo docs limit failAt pos callIdx acc = acc ++ docs.drop pos := by
  intro n
  induction n with
  | zero =>
    intro pos callIdx acc hn hf
    have hfail : failAt ≠ some callIdx := fun h => Nat.lt_irrefl _ (hf _ h)
    have hdp : docs.drop pos = [] := List.drop_eq_nil_of_le (by omega)
    rw [paginateGo_step_nolimit docs limit failAt pos callIdx acc htr hfail, hdp]
    simp
  | succ n ih =>
    intro pos callIdx acc hn hf
    have hfail : failAt ≠ some callIdx := fun h => Nat.lt_irrefl _ (hf _ h)
    rw [paginateGo_step_nolimit docs limit failAt pos callIdx acc htr hfail]
    by_cases hemp : ((docs.drop pos).take batchSize).isEmpty
    · rw [if_pos hemp]
      have h0 : (docs.drop pos).take batchSize = [] := by
        simpa [List.isEmpty_iff] using hemp
      rcases List.take_eq_nil_iff.mp h0 with hb | hd
      · exact absurd hb (by simp [batchSize])
      · rw [hd]
        simp
    · rw [if_neg hemp]
      have hpos : pos < docs.length := by
        by_contra hge
        apply hemp
        rw [List.drop_eq_nil_of_le (Nat.le_of_not_lt hge), List.take_nil]
        rfl
      by_cases hshort : ((docs.drop pos).take batchSize).length < batchSize
      · rw [if_pos hshort]
        have hle : (docs.drop pos).length ≤ batchSize := by
          rw [List.length_take] at hshort
          omega
        rw [List.take_of_length_le hle]
      · rw [if_neg hshort]
        have hblen : ((docs.drop pos).take batchSize).length = batchSize := by
          rw [List.length_take] at hshort ⊢
          omega
        rw [ih (pos + ((docs.drop pos).take batchSize).length) (callIdx + 1)
          (acc ++ (docs.drop pos).take batchSize)
          (by rw [hblen]; simp only [batchSize]; omega)
          (fun c h => Nat.lt_succ_of_lt (hf c h))]
        rw [List.append_assoc]
        congr 1
        rw [hblen]
        have hdd : docs.drop (pos + batchSize) = (docs.drop pos).drop batchSize := by
          rw [List.drop_drop, Nat.add_comm]
        rw [hdd, List.take_append_drop]

/-- Stepping with a truthy limit above the accumulated count. -/
theorem paginateGo_step_limit {α : Type} (docs : List α) (l : Nat)
    (failAt : Option Nat) (pos callIdx : Nat) (acc : List α) (hl : l ≠ 0)
    (hfail : failAt ≠ some callIdx) (hacc : acc.length < l) :
    paginateGo docs (some l) failAt pos callIdx acc =
      if ((docs.drop pos).take (min batchSize (l - acc.length))).isEmpty then acc
      else if ((docs.drop pos).take (min batchSize (l - acc.length))).length <
          min batchSize (l - acc.length) then
        acc ++ (docs.drop pos).take (min batchSize (l - acc.length))
      else paginateGo docs (some l) failAt
        (pos + ((docs.drop pos).take (min batchSize (l - acc.length))).length)
        (callIdx + 1)
        (acc ++ (docs.drop pos).take (min batchSize (l - acc.length))) := by
  have htr : truthyLimit (some l) = true := by simp [truthyLimit, hl]
  have hrem : (if truthyLimit (some l) then (some l : Option Nat).getD 0 - acc.length
      else batchSize) ≠ 0 := by
    rw [htr]
    simp only [if_true, Option.getD_some]
    omega
  rw [paginateGo_step docs (some l) failAt pos callIdx acc hrem hfail]
  simp [htr]

/-- With a truthy limit `l` and no fetch error the loop returns the next
`l - acc.length` records after the cursor. -/
theorem paginateGo_limit {α : Type} (docs : List α) (l : Nat) (hl : l ≠ 0) :
    ∀ (n pos callIdx : Nat) (acc : List α), docs.length - pos ≤ n →
      paginateGo docs (some l) none pos callIdx acc =
        acc ++ (docs.drop pos).take (l - acc.length) := by
  intro n
  induction n with
  | zero =>
    intro pos callIdx acc hn
    have hdp : docs.drop pos = [] := List.drop_eq_nil_of_le (by omega)
    by_cases hacc : l ≤ acc.length
    · rw [paginateGo_done docs l none pos callIdx acc hl hacc,
        Nat.sub_eq_zero_of_le hacc]
      simp
    · rw [paginateGo_step_limit docs l none pos callIdx acc hl (by simp)
        (Nat.lt_of_not_le hacc), hdp]
      simp
  | succ n ih =>
    intro pos callIdx acc hn
    by_cases hacc : l ≤ acc.length
    · rw [paginateGo_done docs l none pos callIdx acc hl hacc,
        Nat.sub_eq_zero_of_le hacc]
      simp
    · have haccl : acc.length < l := Nat.lt_of_not_le hacc
      rw [paginateGo_step_limit docs l none pos callIdx acc hl (by simp) haccl]
      by_cases hemp : ((docs.drop pos).take (min batchSize (l - acc.length))).isEmpty
      · rw [if_pos hemp]
        have h0 : (docs.drop pos).take (min batchSize (l - acc.length)) = [] := by
          simpa [List.isEmpty_iff] using hemp
        rcases List.take_eq_nil_iff.mp h0 with hb | hd
        · have hb1 : 1 ≤ batchSize := by decide
          omega
        · rw [hd]
          simp
      · rw [if_neg hemp]
        by_cases hshort : ((docs.drop pos).take (min batchSize (l - acc.length))).length <
            min batchSize (l - acc.length)
        · rw [if_pos hshort]
          have hle : (docs.drop pos).length ≤ min batchSize (l - acc.length) := by
            rw [List.length_take] at hshort
            omega
          rw [List.take_of_length_le hle,
            List.take_of_length_le (le_trans hle (Nat.min_le_right _ _))]
        · rw [if_neg hshort]
          have hblen : ((docs.drop pos).take (min batchSize (l - acc.length))).length =
              min batchSize (l - acc.length) := by
            rw [List.length_take] at hshort ⊢
            omega
          have hpos : pos < docs.length := by
            by_contra hge
            apply hemp
            rw [List.drop_eq_nil_of_le (Nat.le_of_not_lt hge), List.take_nil]
            rfl
          have hcur1 : 1 ≤ min batchSize (l - acc.length) := by
            have hb1 : 1 ≤ batchSize := by decide
            omega
          rw [ih (pos + ((docs.drop pos).take (min batchSize (l - acc.length))).length)
            (callIdx + 1) (acc ++ (docs.drop pos).take (min batchSize (l - acc.length)))
            (by rw [hblen]; omega)]
          rw [List.append_assoc]
          congr 1
          rw [List.length_append, hblen]
          have hdd : docs.drop (pos + min batchSize (l - acc.length)) =
              (docs.drop pos).drop (min batchSize (l - acc.length)) := by
            rw [List.drop_drop, Nat.add_comm]
          have hsplit : l - acc.length =
              min batchSize (l - acc.length) +
                (l - (acc.length + min batchSize (l - acc.length))) := by
            omega
          conv_rhs => rw [hsplit, List.take_add]
          rw [hdd]

/-- With a falsy limit and a fetch error on call `cfail`, the loop
returns exactly the `batchSize * (cfail - callIdx)` records it had
accumulated before the failing call. -/
theorem paginateGo_fail_drain {α : Type} (docs : List α) (limit : Option Nat)
    (cfail : Nat) (htr : truthyLimit limit = false) :
    ∀ (n pos callIdx : Nat) (acc : List α), docs.length - pos ≤ n →
      callIdx ≤ cfail →
      paginateGo docs limit (some cfail) pos callIdx acc =
        acc ++ (docs.drop pos).take (batchSize * (cfail - callIdx)) := by
  intro n
  induction n with
  | zero =>
    intro pos callIdx acc hn hc
    have hdp : docs.drop pos = [] := List.drop_eq_nil_of_le (by omega)
    by_cases heq : callIdx = cfail
    · subst heq
      rw [paginateGo_fail docs limit pos callIdx acc (by rw [htr]; simp [batchSize])]
      simp [hdp]
    · have hfail : (some cfail : Option Nat) ≠ some callIdx := by
        intro h
        exact heq (Option.some.inj h).symm
      rw [paginateGo_step_nolimit docs limit (some cfail) pos callIdx acc htr hfail,
        hdp]
      simp
  | succ n ih =>
    intro pos callIdx acc hn hc
    by_cases heq : callIdx = cfail
    · subst heq
      rw [paginateGo_fail docs limit pos callIdx acc (by rw [htr]; simp [batchSize])]
      simp
    · have hlt : callIdx < cfail := Nat.lt_of_le_of_ne hc heq
      have hfail : (some cfail : Option Nat) ≠ some callIdx := by
        intro h
        exact heq (Option.some.inj h).symm
      rw [paginateGo_step_nolimit docs limit (some cfail) pos callIdx acc htr hfail]
      by_cases hemp : ((docs.drop pos).take batchSize).isEmpty
      · rw [if_pos hemp]
        have h0 : (docs.drop pos).take batchSize = [] := by
          simpa [List.isEmpty_iff] using hemp
        rcases List.take_eq_nil_iff.mp h0 with hb | hd
        · exact absurd hb (by simp [batchSize])
        · rw [hd]
          simp
      · rw [if_neg hemp]
        have hpos : pos < docs.length := by
          by_contra hge
          apply hemp
          rw [List.drop_eq_nil_of_le (Nat.le_of_not_lt hge), List.take_nil]
          rfl
        by_cases hshort : ((docs.drop pos).take batchSize).length < batchSize
        · rw [if_pos hshort]
          have hle : (docs.drop pos).length ≤ batchSize := by
            rw [List.length_take] at hshort
            omega
          have hle2 : (docs.drop pos).length ≤ batchSize * (cfail - callIdx) := by
            have hk : batchSize * 1 ≤ batchSize * (cfail - callIdx) :=
              Nat.mul_le_mul_left _ (by omega)
            omega
          rw [List.take_of_length_le hle, List.take_of_length_le hle2]
        · rw [if_neg hshort]
          have hblen : ((docs.drop pos).take batchSize).length = batchSize := by
            rw [List.length_take] at hshort ⊢
            omega
          rw [ih (pos + ((docs.drop pos).take batchSize).length) (callIdx + 1)
            (acc ++ (docs.drop pos).take batchSize)
            (by rw [hblen]; simp only [batchSize]; omega) (by omega)]
          rw [List.append_assoc]
          congr 1
          rw [hblen]
          have hdd : docs.drop (pos + batchSize) = (docs.drop pos).drop batchSize := by
            rw [List.drop_drop, Nat.add_comm]
          have hsplit : batchSize * (cfail - callIdx) =
              batchSize + batchSize * (cfail - (callIdx + 1)) := by
            have hk : cfail - callIdx = 1 + (cfail - (callIdx + 1)) := by omega
            rw [hk, Nat.mul_add, Nat.mul_one]
          conv_rhs => rw [hsplit, List.take_add]
          rw [hdd]

/-- C8 (amended): with no limit (or a falsy one) and no fetch error the
fetcher drains the whole store (conjunct 1); with a positive limit `l`
and no error it returns exactly the first `l` records, requesting
`min(batch_size, remaining)` each round and stopping at the limit or at
a short batch (conjunct 2); a fetch error on call `c` aborts and returns
exactly the `batch_size * c` records accumulated so far, without raising
(conjunct 3); with a positive limit the result never exceeds the limit,
error or not (conjunct 4). -/
theorem C8_paginated_fetcher :
    (∀ (α : Type) (docs : List α),
      execute_tracking_query_paginated docs none none = docs) ∧
    (∀ (α : Type) (docs : List α) (l : Nat), l ≠ 0 →
      execute_tracking_query_paginated docs (some l) none = docs.take l) ∧
    (∀ (α : Type) (docs : List α) (c : Nat),
      execute_tracking_query_paginated docs none (some c) =
        docs.take (batchSize * c)) ∧
    (∀ (α : Type) (docs : List α) (l : Nat) (failAt : Option Nat), l ≠ 0 →
      (execute_tracking_query_paginated docs (some l) failAt).length ≤ l) := by
  refine ⟨?_, ?_, ?_, ?_⟩
  · intro α docs
    simp only [execute_tracking_query_paginated]
    rw [paginateGo_drain docs none none rfl docs.length 0 0 [] (by omega)
      (fun c h => by cases h)]
    simp [truthyLimit]
  · intro α docs l hl
    simp only [execute_tracking_query_paginated]
    rw [paginateGo_limit docs l hl docs.length 0 0 [] (by omega)]
    simp only [List.drop_zero, List.nil_append, List.length_nil, Nat.sub_zero]
    have hcond : ¬ (truthyLimit (some l) = true ∧
        (some l : Option Nat).getD 0 < (docs.take l).length) := by
      intro hc
      have := hc.2
      rw [Option.getD_some, List.length_take] at this
      omega
    rw [if_neg hcond]
  · intro α docs c
    simp only [execute_tracking_query_paginated]
    rw [paginateGo_fail_drain docs none c rfl docs.length 0 0 [] (by omega)
      (Nat.zero_le c)]
    simp [truthyLimit]
  · intro α docs l failAt hl
    simp only [execute_tracking_query_paginated]
    by_cases hc : truthyLimit (some l) = true ∧
        (some l : Option Nat).getD 0 < (paginateGo docs (some l) failAt 0 0 []).length
    · rw [if_pos hc]
      rw [Option.getD_some, List.length_take]
      omega
    · rw [if_neg hc]
      have hA : truthyLimit (some l) = true := by simp [truthyLimit, hl]
      have hB : ¬ ((some l : Option Nat).getD 0 <
          (paginateGo docs (some l) failAt 0 0 []).length) :=
        fun hb => hc ⟨hA, hb⟩
      rw [Option.getD_some] at hB
      omega

/-- C8 counterexample: a caller-supplied limit of `0` is falsy in Python
(`if limit:`), so the fetcher ignores it and returns more records than
the limit. -/
theorem C8_counterexample :
    execute_tracking_query_paginated [(0 : Nat)] (some 0) none = [0] ∧
    ¬ ((execute_tracking_query_paginated [(0 : Nat)] (some 0) none).length ≤ 0) := by
  have h : execute_tracking_query_paginated [(0 : Nat)] (some 0) none = [0] := by
    simp only [execute_tracking_query_paginated]
    rw [paginateGo_drain [(0 : Nat)] (some 0) none rfl 1 0 0 [] (by simp)
      (fun c h => by cases h)]
    simp [truthyLimit]
  refine ⟨h, ?_⟩
  rw [h]
  simp

/-- Witness for C8 (amended) on a three-document store. -/
theorem C8_paginated_fetcher_witness :
    execute_tracking_query_paginated [1, 2, 3] none none = [1, 2, 3] ∧
    execute_tracking_query_paginated [1, 2, 3] (some 2) none = [1, 2] ∧
    execute_tracking_query_paginated [1, 2, 3] none (some 0) = [] ∧
    (execute_tracking_query_paginated [1, 2, 3] (some 2) (some 0)).length ≤ 2 := by
  obtain ⟨h1, h2, h3, h4⟩ := C8_paginated_fetcher
  refine ⟨h1 Nat [1, 2, 3], ?_, ?_, h4 Nat [1, 2, 3] 2 (some 0) (by decide)⟩
  · exact (h2 Nat [1, 2, 3] 2 (by decide)).trans rfl
  · exact (h3 Nat [1, 2, 3] 0).trans rfl

/-! ## C6 / C7 — category tree round-trip -/

/-- The identity key of a flat entry (what `build_tree` reads). -/
def keyOf (e : FlatCat) : Nat × String := (e.id, e.name)

/-- The identity key of a tree node. -/
def nodeKey (n : CatNode) : Nat × String := (n.id, n.name)

/-- Flattening lists exactly the forest's ids, in depth-first order. -/
theorem flatten_ids : ∀ (ts : List CatNode) (l : Nat) (p : Option Nat),
    (flatten_tree ts l p).map FlatCat.id = forestIds ts := by
  intro ts
  induction ts using forest_induction with
  | hnil => intro l p; simp [flatten_tree, forestIds]
  | hcons i nm cs rest ihcs ihrest =>
    intro l p
    simp [flatten_tree, forestIds, ihcs, ihrest]

/-- Every flattened entry's parent is the anchor or the id of some node
of the forest. -/
theorem flatten_parent_mem : ∀ (ts : List CatNode) (l : Nat) (p : Option Nat)
    (e : FlatCat), e ∈ flatten_tree ts l p →
    e.parent_id = p ∨ ∃ j ∈ forestIds ts, e.parent_id = some j := by
  intro ts
  induction ts using forest_induction with
  | hnil => intro l p e he; simp [flatten_tree] at he
  | hcons i nm cs rest ihcs ihrest =>
    intro l p e he
    simp only [flatten_tree, List.mem_cons, List.mem_append] at he
    rcases he with he | he | he
    · subst he
      exact Or.inl rfl
    · rcases ihcs (l + 1) (some i) e he with hp | ⟨j, hj, hej⟩
      · exact Or.inr ⟨i, by simp [forestIds], hp⟩
      · exact Or.inr ⟨j, by simp [forestIds]; right; left; exact hj, hej⟩
    · rcases ihrest l p e he with hp | ⟨j, hj, hej⟩
      · exact Or.inl hp
      · exact Or.inr ⟨j, by simp [forestIds]; right; right; exact hj, hej⟩

/-- Every flattened entry's id is an id of the forest. -/
theorem flatten_id_mem : ∀ (ts : List CatNode) (l : Nat) (p : Option Nat)
    (e : FlatCat), e ∈ flatten_tree ts l p → e.id ∈ forestIds ts := by
  intro ts
  induction ts using forest_induction with
  | hnil => intro l p e he; simp [flatten_tree] at he
  | hcons i nm cs rest ihcs ihrest =>
    intro l p e he
    simp only [flatten_tree, List.mem_cons, List.mem_append] at he
    rcases he with he | he | he
    · subst he
      simp [forestIds]
    · simp only [forestIds, List.mem_cons, List.mem_append]
      exact Or.inr (Or.inl (ihcs (l + 1) (some i) e he))
    · simp only [forestIds, List.mem_cons, List.mem_append]
      exact Or.inr (Or.inr (ihrest l p e he))

/-- Every deep node's id is an id of the forest. -/
theorem nodes_id_mem : ∀ (ts : List CatNode) (n : CatNode),
    n ∈ nodesOf ts → n.id ∈ forestIds ts := by
  intro ts
  induction ts using forest_induction with
  | hnil => intro n hn; simp [nodesOf] at hn
  | hcons i nm cs rest ihcs ihrest =>
    intro n hn
    simp only [nodesOf, List.mem_cons, List.mem_append] at hn
    simp only [forestIds, List.mem_cons, List.mem_append]
    rcases hn with hn | hn | hn
    · subst hn
      exact Or.inl rfl
    · exact Or.inr (Or.inl (ihcs n hn))
    · exact Or.inr (Or.inr (ihrest n hn))

/-- An anchor that is neither the flatten anchor nor a forest id filters
to nothing. -/
theorem filter_parent_nil (ts : List CatNode) (l : Nat) (p q : Option Nat)
    (hqp : q ≠ p) (hq : ∀ j ∈ forestIds ts, q ≠ some j) :
    (flatten_tree ts l p).filter (fun e => e.parent_id == q) = [] := by
  rw [List.filter_eq_nil_iff]
  intro e he
  rcases flatten_parent_mem ts l p e he with hp | ⟨j, hj, hej⟩
  · simp only [hp, beq_iff_eq]
    exact fun h => hqp h.symm
  · simp only [hej, beq_iff_eq]
    intro h
    exact hq j hj h.symm

/-- Filtering a flattening at its own anchor returns exactly the
top-level entries, in order. -/
theorem filter_parent_top : ∀ (ts : List CatNode) (l : Nat) (p : Option Nat),
    (∀ j ∈ forestIds ts, p ≠ some j) →
    (flatten_tree ts l p).filter (fun e => e.parent_id == p) =
      ts.map (fun n => { id := n.id, name := n.name, level := l, parent_id := p }) := by
  intro ts
  induction ts using forest_induction with
  | hnil => intro l p hp; simp [flatten_tree]
  | hcons i nm cs rest ihcs ihrest =>
    intro l p hp
    have hics : ∀ j ∈ forestIds cs, p ≠ some j := by
      intro j hj
      exact hp j (by simp [forestIds]; right; left; exact hj)
    have hirest : ∀ j ∈ forestIds rest, p ≠ some j := by
      intro j hj
      exact hp j (by simp [forestIds]; right; right; exact hj)
    have hcsnil : (flatten_tree cs (l + 1) (some i)).filter
        (fun e => e.parent_id == p) = [] := by
      apply filter_parent_nil
      · exact hp i (by simp [forestIds])
      · exact hics
    simp only [flatten_tree, List.filter_cons, List.filter_append]
    rw [hcsnil, ihrest l p hirest]
    simp [CatNode.id, CatNode.name]

/-- With distinct ids, filtering a flattening at the id of any deep node
returns exactly that node's children (as keys). -/
theorem filter_parent_node : ∀ (ts : List CatNode) (l : Nat) (p : Option Nat),
    List.Nodup (forestIds ts) → (∀ j ∈ forestIds ts, p ≠ some j) →
    ∀ n ∈ nodesOf ts,
      ((flatten_tree ts l p).filter (fun e => e.parent_id == some n.id)).map keyOf =
        n.childs.map nodeKey := by
  intro ts
  induction ts using forest_induction with
  | hnil => intro l p _ _ n hn; simp [nodesOf] at hn
  | hcons i nm cs rest ihcs ihrest =>
    intro l p hnd hp n hn
    have hnd' := hnd
    rw [forestIds, List.nodup_cons, List.nodup_append] at hnd'
    obtain ⟨hinotin, hndcs, hndrest, hdisj⟩ := hnd'
    have hinotcs : i ∉ forestIds cs := fun h => hinotin (by simp [h])
    have hinotrest : i ∉ forestIds rest := fun h => hinotin (by simp [h])
    have hics : ∀ j ∈ forestIds cs, (some i : Option Nat) ≠ some j := by
      intro j hj h
      exact hinotcs ((Option.some.inj h) ▸ hj)
    simp only [nodesOf, List.mem_cons, List.mem_append] at hn
    rcases hn with hn | hn | hn
    · -- n is the head node; its id is i, its children are cs
      subst hn
      simp only [flatten_tree, List.filter_cons, List.filter_append, CatNode.id,
        CatNode.childs]
      have htop : (({ id := i, name := nm, level := l, parent_id := p } :
          FlatCat).parent_id == some i) = false := by
        simp only [beq_eq_false_iff_ne]
        exact hp i (by simp [forestIds])
      rw [htop]
      rw [filter_parent_top cs (l + 1) (some i) hics]
      rw [filter_parent_nil rest l p (some i)
        (fun h => hp i (by simp [forestIds]) h.symm)
        (fun j hj h => hinotrest ((Option.some.inj h) ▸ hj))]
      simp [keyOf, nodeKey, List.map_map]
    · -- n lies inside cs
      have hid : n.id ∈ forestIds cs := nodes_id_mem cs n hn
      simp only [flatten_tree, List.filter_cons, List.filter_append]
      have htop : (({ id := i, name := nm, level := l, parent_id := p } :
          FlatCat).parent_id == some n.id) = false := by
        simp only [beq_eq_false_iff_ne]
        exact hp n.id (by simp [forestIds]; right; left; exact hid)
      rw [htop]
      rw [filter_parent_nil rest l p (some n.id)
        (fun h => hp n.id (by simp [forestIds]; right; left; exact hid) h.symm)
        (fun j hj h => hdisj ((Option.some.inj h) ▸ hid) hj)]
      rw [List.append_nil]
      exact ihcs (l + 1) (some i) hndcs hics n hn
    · -- n lies inside rest
      have hid : n.id ∈ forestIds rest := nodes_id_mem rest n hn
      simp only [flatten_tree, List.filter_cons, List.filter_append]
      have htop : (({ id := i, name := nm, level := l, parent_id := p } :
          FlatCat).parent_id == some n.id) = false := by
        simp only [beq_eq_false_iff_ne]
        exact hp n.id (by simp [forestIds]; right; right; exact hid)
      rw [htop]
      have hirest : ∀ j ∈ forestIds rest, p ≠ some j := by
        intro j hj
        exact hp j (by simp [forestIds]; right; right; exact hj)
      rw [filter_parent_nil cs (l + 1) (some i) (some n.id)
        (fun h => hinotrest ((Option.some.inj h).symm ▸ hid))
        (fun j hj h => hdisj hj ((Option.some.inj h) ▸ hid))]
      rw [List.nil_append]
      exact ihrest l p hndrest hirest n hn

/-- A forest of depth 0 is empty. -/
theorem depth_zero (ts : List CatNode) (h : forestDepth ts ≤ 0) : ts = [] := by
  cases ts with
  | nil => rfl
  | cons n rest =>
    cases n with
    | mk i nm cs =>
      simp [forestDepth] at h

/-- Children are strictly shallower than the forest containing them. -/
theorem depth_child : ∀ (ts : List CatNode), ∀ n ∈ ts,
    forestDepth n.childs < forestDepth ts := by
  intro ts
  induction ts with
  | nil => intro n hn; simp at hn
  | cons m rest ih =>
    intro n hn
    cases m with
    | mk i nm cs =>
      rcases List.mem_cons.mp hn with hn | hn
      · subst hn
        simp only [forestDepth, CatNode.childs]
        omega
      · have := ih n hn
        simp only [forestDepth]
        omega

/-- The depth of a forest is at most its number of nodes. -/
theorem depth_le_ids : ∀ ts : List CatNode,
    forestDepth ts ≤ (forestIds ts).length := by
  intro ts
  induction ts using forest_induction with
  | hnil => simp [forestDepth, forestIds]
  | hcons i nm cs rest ihcs ihrest =>
    simp only [forestDepth, forestIds, List.length_cons, List.length_append]
    omega

/-- Rebuilding from any flat list whose filters agree with a forest (on
identity keys) restores that forest, given enough fuel for its depth. -/
theorem buildTree_restore (F : List FlatCat) :
    ∀ (fuel : Nat) (ts : List CatNode) (p : Option Nat) (l : Nat),
      (F.filter (fun e => e.parent_id == p)).map keyOf = ts.map nodeKey →
      (∀ n ∈ nodesOf ts,
        ((F.filter (fun e => e.parent_id == some n.id)).map keyOf =
          n.childs.map nodeKey)) →
      forestDepth ts ≤ fuel →
      buildTree F p l fuel = ts := by
  intro fuel
  induction fuel with
  | zero =>
    intro ts p l h1 h2 hd
    rw [depth_zero ts hd]
    rfl
  | succ f ihf =>
    intro ts p l h1 h2 hd
    have inner : ∀ (ts2 : List CatNode) (es : List FlatCat) (l2 : Nat),
        es.map keyOf = ts2.map nodeKey →
        (∀ n ∈ nodesOf ts2,
          ((F.filter (fun e => e.parent_id == some n.id)).map keyOf =
            n.childs.map nodeKey)) →
        (∀ n ∈ ts2, forestDepth n.childs ≤ f) →
        es.map (fun item => CatNode.mk item.id item.name
          (buildTree F (some item.id) (l2 + 1) f)) = ts2 := by
      intro ts2
      induction ts2 using forest_induction with
      | hnil =>
        intro es l2 hk _ _
        have hes : es = [] := by
          simp only [List.map_nil] at hk
          exact List.map_eq_nil_iff.mp hk
        subst hes
        rfl
      | hcons i nm cs rest ihcs ihrest =>
        intro es l2 hk hall hdc
        rcases es with _ | ⟨e, es2⟩
        · simp at hk
        · simp only [List.map_cons, List.cons.injEq] at hk
          obtain ⟨hke, hktail⟩ := hk
          have heid : e.id = i ∧ e.name = nm := by
            simpa [keyOf, nodeKey, CatNode.id, CatNode.name, Prod.ext_iff] using hke
          rw [List.map_cons]
          congr 1
          · rw [heid.1, heid.2]
            congr 1
            exact ihf cs (some i) (l2 + 1)
              (hall (CatNode.mk i nm cs) (by simp [nodesOf]))
              (fun n hn => hall n
                (by simp only [nodesOf, List.mem_cons, List.mem_append]
                    exact Or.inr (Or.inl hn)))
              (by simpa [CatNode.childs] using
                hdc (CatNode.mk i nm cs) (List.mem_cons_self _ _))
          · exact ihrest es2 l2 hktail
              (fun n hn => hall n
                (by simp only [nodesOf, List.mem_cons, List.mem_append]
                    exact Or.inr (Or.inr hn)))
              (fun n hn => hdc n (List.mem_cons_of_mem _ hn))
    rw [buildTree]
    exact inner ts (F.filter (fun e => e.parent_id == p)) l h1 h2
      (fun n hn => by have := depth_child ts n hn; omega)

/-- `get_tree_all` rebuilds the exact forest from its flattening,
provided the forest's ids are distinct. -/
theorem build_of_flatten (x : List CatNode) (h : List.Nodup (forestIds x)) :
    get_tree_all (flatten_tree x 1 none) none = x := by
  unfold get_tree_all
  apply buildTree_restore
  · rw [filter_parent_top x 1 none (fun j _ => by simp)]
    simp [keyOf, nodeKey, List.map_map]
  · intro n hn
    exact filter_parent_node x 1 none h (fun j _ => by simp) n hn
  · have h1 := depth_le_ids x
    have h2 : (flatten_tree x 1 none).length = (forestIds x).length := by
      rw [← flatten_ids x 1 none, List.length_map]
    omega

/-- C6: for every category forest with distinct ids (the data-model
invariant: ids are Mongo document ids), flattening the tree rebuilt from
the flattened form gives back the flattened form — not merely up to
ordering, but as the identical list, preserving each node's identity and
level. -/
theorem C6_flatten_build_roundtrip (x : List CatNode)
    (h : List.Nodup (forestIds x)) :
    flatten_tree (get_tree_all (flatten_tree x 1 none) none) 1 none =
      flatten_tree x 1 none := by
  rw [build_of_flatten x h]

/-- A concrete two-root forest with nested children. -/
def forestW : List CatNode :=
  [CatNode.mk 1 "a" [CatNode.mk 2 "b" [], CatNode.mk 3 "c" [CatNode.mk 4 "d" []]],
   CatNode.mk 5 "e" []]

/-- Witness for C6 on `forestW`. -/
theorem C6_flatten_build_roundtrip_witness :
    List.Nodup (forestIds forestW) ∧
    flatten_tree (get_tree_all (flatten_tree forestW 1 none) none) 1 none =
      flatten_tree forestW 1 none :=
  ⟨by simp only [forestW, forestIds]; decide,
   C6_flatten_build_roundtrip forestW (by simp only [forestW, forestIds]; decide)⟩

/-- Entries of a flattening that point at the anchor sit at the anchor
level. -/
theorem flatten_level_root : ∀ (ts : List CatNode) (l : Nat) (p : Option Nat),
    (∀ j ∈ forestIds ts, p ≠ some j) →
    ∀ e ∈ flatten_tree ts l p, e.parent_id = p → e.level = l := by
  intro ts
  induction ts using forest_induction with
  | hnil => intro l p _ e he; simp [flatten_tree] at he
  | hcons i nm cs rest ihcs ihrest =>
    intro l p hp e he hep
    simp only [flatten_tree, List.mem_cons, List.mem_append] at he
    rcases he with he | he | he
    · subst he
      rfl
    · exfalso
      rcases flatten_parent_mem cs (l + 1) (some i) e he with h1 | ⟨j, hj, hej⟩
      · rw [hep] at h1
        exact hp i (by simp [forestIds]) h1
      · rw [hep] at hej
        exact hp j (by simp [forestIds]; right; left; exact hj) hej
    · exact ihrest l p
        (fun j hj => hp j (by simp [forestIds]; right; right; exact hj)) e he hep

/-- With distinct ids, an entry pointing at another entry's id sits one
level below it. -/
theorem flatten_level_child : ∀ (ts : List CatNode) (l : Nat) (p : Option Nat),
    List.Nodup (forestIds ts) → (∀ j ∈ forestIds ts, p ≠ some j) →
    ∀ e ∈ flatten_tree ts l p, ∀ q ∈ flatten_tree ts l p,
      e.parent_id = some q.id → e.level = q.level + 1 := by
  intro ts
  induction ts using forest_induction with
  | hnil => intro l p _ _ e he; simp [flatten_tree] at he
  | hcons i nm cs rest ihcs ihrest =>
    intro l p hnd hp e he q hq hpq
    have hnd' := hnd
    rw [forestIds, List.nodup_cons, List.nodup_append] at hnd'
    obtain ⟨hinotin, hndcs, hndrest, hdisj⟩ := hnd'
    have hinotcs : i ∉ forestIds cs := fun h => hinotin (by simp [h])
    have hinotrest : i ∉ forestIds rest := fun h => hinotin (by simp [h])
    have hics : ∀ j ∈ forestIds cs, (some i : Option Nat) ≠ some j := by
      intro j hj h
      exact hinotcs ((Option.some.inj h) ▸ hj)
    have hirest : ∀ j ∈ forestIds rest, p ≠ some j :=
      fun j hj => hp j (by simp [forestIds]; right; right; exact hj)
    simp only [flatten_tree, List.mem_cons, List.mem_append] at he hq
    rcases hq with hq | hq | hq
    · -- q is the top entry: its id is i, its level is l
      subst hq
      rw [show ({ id := i, name := nm, level := l, parent_id := p } :
        FlatCat).id = i from rfl] at hpq
      rcases he with he | he | he
      · subst he
        exact absurd hpq (hp i (by simp [forestIds]))
      · exact flatten_level_root cs (l + 1) (some i) hics e he hpq
      · exfalso
        rcases flatten_parent_mem rest l p e he with h1 | ⟨j, hj, hej⟩
        · rw [hpq] at h1
          exact hp i (by simp [forestIds]) h1.symm
        · rw [hpq] at hej
          exact hinotrest ((Option.some.inj hej) ▸ hj)
    · -- q lies in the cs part
      have hqid : q.id ∈ forestIds cs := flatten_id_mem cs (l + 1) (some i) q hq
      rcases he with he | he | he
      · subst he
        exact absurd hpq
          (hp q.id (by simp [forestIds]; right; left; exact hqid))
      · exact ihcs (l + 1) (some i) hndcs hics e he q hq hpq
      · exfalso
        rcases flatten_parent_mem rest l p e he with h1 | ⟨j, hj, hej⟩
        · rw [hpq] at h1
          exact hp q.id (by simp [forestIds]; right; left; exact hqid) h1.symm
        · rw [hpq] at hej
          exact hdisj hqid ((Option.some.inj hej) ▸ hj)
    · -- q lies in the rest part
      have hqid : q.id ∈ forestIds rest := flatten_id_mem rest l p q hq
      rcases he with he | he | he
      · subst he
        exact absurd hpq
          (hp q.id (by simp [forestIds]; right; right; exact hqid))
      · exfalso
        rcases flatten_parent_mem cs (l + 1) (some i) e he with h1 | ⟨j, hj, hej⟩
        · rw [hpq] at h1
          exact hinotrest ((Option.some.inj h1).symm ▸ hqid)
        · rw [hpq] at hej
          exact hdisj hj ((Option.some.inj hej).symm ▸ hqid)
      · exact ihrest l p hndrest hirest e he q hq hpq

/-- A flat list whose single entry references an absent parent: no cycle,
yet the entry is dropped by build-then-flatten. -/
def orphanFlatC7 : List FlatCat :=
  [{ id := 1, name := "a", level := 1, parent_id := some 2 }]

/-- C7 counterexample: a cycle-free flat list with an orphan parent
reference loses its id — `flatten(build_tree(list))` is empty although
id 1 occurs in the input, so ids are not always preserved. -/
theorem C7_counterexample :
    flatten_tree (get_tree_all orphanFlatC7 none) 1 none = [] ∧
    1 ∈ orphanFlatC7.map FlatCat.id := by
  constructor
  · have hb : get_tree_all orphanFlatC7 none = [] := by
      rw [get_tree_all, buildTree]
      rfl
    rw [hb]
    simp [flatten_tree]
  · decide

/-- C7 (amended): for flat category lists that arise as the depth-first
flattening of a forest with distinct ids — equivalently: distinct ids,
no orphan parent references and no cycles — build-then-flatten
preserves the id list exactly (each input id exactly once), level is 1
at entries with a null parent, and the level strictly increases by 1
along every parent→child step. -/
theorem C7_ids_once_levels_increase :
    ∀ (x : List CatNode) (data : List FlatCat),
      List.Nodup (forestIds x) → data = flatten_tree x 1 none →
      (flatten_tree (get_tree_all data none) 1 none).map FlatCat.id =
        data.map FlatCat.id ∧
      List.Nodup ((flatten_tree (get_tree_all data none) 1 none).map FlatCat.id) ∧
      (∀ e ∈ flatten_tree (get_tree_all data none) 1 none,
        e.parent_id = none → e.level = 1) ∧
      (∀ e ∈ flatten_tree (get_tree_all data none) 1 none,
        ∀ q ∈ flatten_tree (get_tree_all data none) 1 none,
          e.parent_id = some q.id → e.level = q.level + 1) := by
  intro x data hnd hdata
  subst hdata
  rw [build_of_flatten x hnd]
  refine ⟨rfl, ?_, ?_, ?_⟩
  · rw [flatten_ids]
    exact hnd
  · exact flatten_level_root x 1 none (fun j _ => by simp)
  · exact flatten_level_child x 1 none hnd (fun j _ => by simp)

/-- A two-level chain forest. -/
def chainForestW : List CatNode := [CatNode.mk 10 "r" [CatNode.mk 20 "c" []]]

/-- Witness for C7 (amended) on `chainForestW`. -/
theorem C7_ids_once_levels_increase_witness :
    (flatten_tree (get_tree_all (flatten_tree chainForestW 1 none) none) 1 none).map
        FlatCat.id =
      (flatten_tree chainForestW 1 none).map FlatCat.id ∧
    (∀ e ∈ flatten_tree (get_tree_all (flatten_tree chainForestW 1 none) none) 1 none,
      e.parent_id = none → e.level = 1) := by
  obtain ⟨h1, h2, h3, h4⟩ :=
    C7_ids_once_levels_increase chainForestW (flatten_tree chainForestW 1 none)
      (by simp only [chainForestW, forestIds]; decide) rfl
  exact ⟨h1, h3⟩

end Bidu
